import Mathlib

/-
Verification of the standard-library documentation scanner
(`scripts/gen-stdlib-doc.py`): a shallow embedding of `parse_actors`
and of the grouping / signature-rendering part of `generate_markdown`,
together with theorems about the extraction behaviour.

Lines are modelled as `List Char`; the Python regexes are all
deterministic (maximal munch followed by literal requirements), so each
is embedded as a first-order matching function.  Character classes are
modelled at ASCII granularity.
-/

set_option maxRecDepth 10000

namespace GenStdlibDoc

/-- ASCII whitespace as matched by the `re` module's `\s` and stripped by
`str.strip()`: space, tab, newline, carriage return, vertical tab, form
feed. -/
def pyIsSpace (c : Char) : Bool :=
  c = ' ' || c = '\t' || c = '\n' || c = '\r' || c = '\x0b' || c = '\x0c'

/-- Regex `\w` word characters (ASCII granularity): letters, digits,
underscore. -/
def isWordChar (c : Char) : Bool := c.isAlphanum || c = '_'

/-- `str.lstrip()`. -/
def stripLeft (l : List Char) : List Char := l.dropWhile pyIsSpace

/-- `str.rstrip()`. -/
def stripRight (l : List Char) : List Char := (l.reverse.dropWhile pyIsSpace).reverse

/-- Python `str.strip()`. -/
def pyStrip (l : List Char) : List Char := stripRight (stripLeft l)

/-- Match a literal prefix (regex literal text at the current position),
returning the remainder after it. -/
def dropLit : List Char → List Char → Option (List Char)
  | [], s => some s
  | _ :: _, [] => none
  | p :: ps, c :: cs => if c = p then dropLit ps cs else none

/-- `re.match` success for a pure-literal pattern: the line starts with the
given literal. -/
def hasPre (p s : List Char) : Bool := (dropLit p s).isSome

/-- `RE_FILE.match(line.strip())` with `RE_FILE = r"/// @file"`. -/
def isFileLine (s : List Char) : Bool := hasPre "/// @file".data s

/-- `RE_GROUP_END.match(...)` with `RE_GROUP_END = r"/// @\x7d"`. -/
def isGroupEnd (s : List Char) : Bool := hasPre "/// @\x7d".data s

/-- `RE_CODE_START.match(...)`, pattern `/// @code\x7b.pdl\x7d` (braces and
dot are escaped in the Python pattern, so it is a pure literal). -/
def isCodeStart (s : List Char) : Bool := hasPre "/// @code\x7b.pdl\x7d".data s

/-- `RE_CODE_END.match(...)` with pattern `/// @endcode`. -/
def isCodeEnd (s : List Char) : Bool := hasPre "/// @endcode".data s

/-- Capture group of `RE_DEFGROUP = r"/// @defgroup\s+\S+\s+(.*)"` under
`re.match`.  The pattern is deterministic: each `\s+`/`\S+` is a maximal
run followed by a requirement that cannot be met by backtracking. -/
def matchDefgroup (s : List Char) : Option (List Char) :=
  match dropLit "/// @defgroup".data s with
  | none => none
  | some r =>
    match r with
    | [] => none
    | c :: _ =>
      if pyIsSpace c then
        let r1 := r.dropWhile pyIsSpace
        match r1 with
        | [] => none
        | _ :: _ =>
          let r2 := r1.dropWhile (fun c => !(pyIsSpace c))
          if r2 = [] then none else some (r2.dropWhile pyIsSpace)
      else none

/-- Capture group of `RE_BRIEF = r"/// @brief\s+(.*)"` under `re.match`. -/
def matchBrief (s : List Char) : Option (List Char) :=
  match dropLit "/// @brief".data s with
  | none => none
  | some r =>
    match r with
    | [] => none
    | c :: _ => if pyIsSpace c then some (r.dropWhile pyIsSpace) else none

/-- Capture group of `RE_RETURN = r"/// @return\s+(.*)"` under `re.match`. -/
def matchReturn (s : List Char) : Option (List Char) :=
  match dropLit "/// @return".data s with
  | none => none
  | some r =>
    match r with
    | [] => none
    | c :: _ => if pyIsSpace c then some (r.dropWhile pyIsSpace) else none

/-- Capture groups of `RE_PARAM = r"/// @param\s+(\S+)\s+(.*)"` under
`re.match`: the parameter name and the rest of the line. -/
def matchParam (s : List Char) : Option (List Char × List Char) :=
  match dropLit "/// @param".data s with
  | none => none
  | some r =>
    match r with
    | [] => none
    | c :: _ =>
      if pyIsSpace c then
        let r1 := r.dropWhile pyIsSpace
        match r1 with
        | [] => none
        | _ :: _ =>
          let nm := r1.takeWhile (fun c => !(pyIsSpace c))
          let r2 := r1.dropWhile (fun c => !(pyIsSpace c))
          if r2 = [] then none else some (nm, r2.dropWhile pyIsSpace)
      else none

/-- Capture group of `RE_DOC_LINE = r"/// ?(.*)"` under `re.match`: the text
after `///` and at most one following space. -/
def matchDocLine (s : List Char) : Option (List Char) :=
  match dropLit "///".data s with
  | none => none
  | some r =>
    match r with
    | ' ' :: t => some t
    | t => some t

/-- An arity token of `RE_ACTOR`: `(\w+(?:\(\w+\))?)`.  Returns the captured
token and the remainder.  When the optional parenthesised sub-token is
present but ill-formed the regex falls back to the bare `\w+` capture (the
caller's following `\)` requirement then fails exactly as in `re`). -/
def matchArity (s : List Char) : Option (List Char × List Char) :=
  let w := s.takeWhile isWordChar
  if w = [] then none
  else
    let r := s.dropWhile isWordChar
    match r with
    | '(' :: r2 =>
      let w2 := r2.takeWhile isWordChar
      if w2 = [] then some (w, r)
      else
        match r2.dropWhile isWordChar with
        | ')' :: r3 => some (w ++ '(' :: (w2 ++ [')']), r3)
        | _ => some (w, r)
    | _ => some (w, r)

/-- The mandatory part of `RE_ACTOR`, anchored at the current position:
`ACTOR\((\w+),\s*IN\((\w+),\s*ARITY\),\s*OUT\((\w+),\s*ARITY\)` where
`ARITY = (\w+(?:\(\w+\))?)`.  Returns the five capture groups
(name, in type, in count, out type, out count). -/
def matchActorBody (s : List Char) :
    Option (List Char × List Char × List Char × List Char × List Char) :=
  match dropLit "ACTOR(".data s with
  | none => none
  | some r =>
    let n := r.takeWhile isWordChar
    if n = [] then none
    else
      match r.dropWhile isWordChar with
      | ',' :: r1 =>
        match dropLit "IN(".data (r1.dropWhile pyIsSpace) with
        | none => none
        | some r3 =>
          let it := r3.takeWhile isWordChar
          if it = [] then none
          else
            match r3.dropWhile isWordChar with
            | ',' :: r4 =>
              match matchArity (r4.dropWhile pyIsSpace) with
              | none => none
              | some (ia, r6) =>
                match r6 with
                | ')' :: ',' :: r8 =>
                  match dropLit "OUT(".data (r8.dropWhile pyIsSpace) with
                  | none => none
                  | some r10 =>
                    let ot := r10.takeWhile isWordChar
                    if ot = [] then none
                    else
                      match r10.dropWhile isWordChar with
                      | ',' :: r11 =>
                        match matchArity (r11.dropWhile pyIsSpace) with
                        | none => none
                        | some (oa, r13) =>
                          match r13 with
                          | ')' :: _ => some (n, it, ia, ot, oa)
                          | _ => none
                      | _ => none
                | _ => none
            | _ => none
      | _ => none

/-- The optional non-capturing prefix `(?:template\s*<[^>]+>\s*)?` of
`RE_ACTOR`, applied before the mandatory part. -/
def dropTemplate (s : List Char) : Option (List Char) :=
  match dropLit "template".data s with
  | none => none
  | some r =>
    match r.dropWhile pyIsSpace with
    | '<' :: r2 =>
      match r2.takeWhile (fun c => c != '>') with
      | [] => none
      | _ :: _ =>
        match r2.dropWhile (fun c => c != '>') with
        | '>' :: r3 => some (r3.dropWhile pyIsSpace)
        | _ => none
    | _ => none

/-- `RE_ACTOR` at one position: the optional template prefix is tried first
(its capture groups are unaffected either way). -/
def actorAt (s : List Char) :
    Option (List Char × List Char × List Char × List Char × List Char) :=
  match dropTemplate s with
  | some r =>
    match matchActorBody r with
    | some t => some t
    | none => matchActorBody s
  | none => matchActorBody s

/-- `RE_ACTOR.search(line)`: leftmost position at which the pattern
matches. -/
def searchActor : List Char →
    Option (List Char × List Char × List Char × List Char × List Char)
  | [] => none
  | s@(_ :: rest) =>
    match actorAt s with
    | some t => some t
    | none => searchActor rest

/-- One entry of the `actors` list built by `parse_actors` (the dict
initialised at gen-stdlib-doc.py lines 72-85).  The Python key `example`
is called `exampleLines` here because `example` is a Lean keyword; the
Python empty string fields are empty lists. -/
structure Actor where
  group : Option (List Char)
  brief : List Char
  description : List (List Char)
  params : List (List Char × List Char)
  returns : List Char
  exampleLines : List (List Char)
  signature : List Char
  name : List Char
  in_type : List Char
  in_count : List Char
  out_type : List Char
  out_count : List Char
deriving Repr, DecidableEq

/-- The freshly initialised record at a `@brief` line (lines 72-85). -/
def initActor (g : Option (List Char)) (b : List Char) : Actor :=
  { group := g, brief := b, description := [], params := [], returns := []
    exampleLines := [], signature := [], name := [], in_type := []
    in_count := [], out_type := [], out_count := [] }

/-- The doc-comment block loop (lines 90-135).  Returns the updated record
and the number of lines consumed; the loop breaks (consuming nothing
further) at the first line that neither starts with `///` (after
stripping) nor is blank. -/
def docLoop : List (List Char) → Actor → Bool → Actor × Nat
  | [], a, _ => (a, 0)
  | l :: rest, a, inCode =>
    let s := pyStrip l
    if ¬ (hasPre "///".data s = true) ∧ ¬ (s = []) then (a, 0)
    else if s = [] then
      let p := docLoop rest a inCode
      (p.1, p.2 + 1)
    else if isCodeStart s then
      let p := docLoop rest a true
      (p.1, p.2 + 1)
    else if isCodeEnd s then
      let p := docLoop rest a false
      (p.1, p.2 + 1)
    else if inCode then
      match matchDocLine s with
      | some t =>
        let p := docLoop rest { a with exampleLines := a.exampleLines ++ [t] } true
        (p.1, p.2 + 1)
      | none =>
        let p := docLoop rest a true
        (p.1, p.2 + 1)
    else
      match matchParam s with
      | some pr =>
        let p := docLoop rest { a with params := a.params ++ [pr] } false
        (p.1, p.2 + 1)
      | none =>
        match matchReturn s with
        | some r =>
          let p := docLoop rest { a with returns := r } false
          (p.1, p.2 + 1)
        | none =>
          match matchDocLine s with
          | some t =>
            let a' := if ¬ (t = []) ∧ ¬ (t = "Example usage:".data) then
                { a with description := a.description ++ [t] } else a
            let p := docLoop rest a' false
            (p.1, p.2 + 1)
          | none =>
            let p := docLoop rest a false
            (p.1, p.2 + 1)

/-- The signature-accumulation loop (lines 148-154): collect stripped lines
while the raw line does not contain `{`; for the line that does, append the
stripped text before the first `{`.  The cursor is left at the brace line
(consumed count excludes it), matching the Python `while`. -/
def sigLoop : List (List Char) → List (List Char) → List (List Char) × Nat
  | [], acc => (acc, 0)
  | l :: rest, acc =>
    if '\x7b' ∈ l then
      (acc ++ [pyStrip ((pyStrip l).takeWhile (fun c => c != '\x7b'))], 0)
    else
      let p := sigLoop rest (acc ++ [pyStrip l])
      (p.1, p.2 + 1)

/-- The declaration-search loop (lines 138-160): scan forward for a line
where `RE_ACTOR.search` succeeds, fill in the five captured fields and the
accumulated signature; on end of input return the record unchanged.
Returns the updated record and the number of lines consumed (the cursor
is left on the brace line found by `sigLoop`, as in the Python `break`).
The Python lines 157-158 are a self-assignment and have no effect. -/
def findActor : List (List Char) → Actor → Actor × Nat
  | [], a => (a, 0)
  | l :: rest, a =>
    match searchActor (pyStrip l) with
    | some (n, it, ic, ot, oc) =>
      let p := sigLoop (l :: rest) []
      ({ a with name := n, in_type := it, in_count := ic, out_type := ot
                out_count := oc
                signature := pyStrip (List.intercalate [' '] p.1) }, p.2)
    | none =>
      let p := findActor rest a
      (p.1, p.2 + 1)

/-- The main scanning loop of `parse_actors` (lines 44-165), with an
explicit fuel parameter standing for the loop's termination (each
iteration advances the cursor by at least one line, so any fuel exceeding
the number of lines is enough; `none` marks fuel exhaustion and is proved
unreachable for adequate fuel).  State: remaining lines, `current_group`,
`in_file_block`, accumulated `actors`. -/
def scanLoopF : Nat → List (List Char) → Option (List Char) → Bool →
    List Actor → Option (List Actor)
  | 0, _, _, _, _ => none
  | _ + 1, [], _, _, acc => some acc
  | f + 1, l :: rest, g, fb, acc =>
    let s := pyStrip l
    if isFileLine s then scanLoopF f rest g true acc
    else if fb ∧ hasPre "///".data s then scanLoopF f rest g true acc
    else
      match matchDefgroup s with
      | some t => scanLoopF f rest (some t) false acc
      | none =>
        if isGroupEnd s then scanLoopF f rest g false acc
        else
          match matchBrief s with
          | some b =>
            let p1 := docLoop rest (initActor g b) false
            let p2 := findActor (rest.drop p1.2) p1.1
            let acc2 := if p2.1.name = [] then acc else acc ++ [p2.1]
            scanLoopF f (((rest.drop p1.2).drop p2.2).drop 1) g false acc2
          | none => scanLoopF f rest g false acc

/-- `parse_actors` on an already-split list of lines. -/
def parse_actors_lines (lines : List (List Char)) : List Actor :=
  (scanLoopF (lines.length + 1) lines none false []).getD []

/-- Python `str.splitlines()` (tail-character model: the ASCII/Latin-1 and
Unicode line boundaries recognised by CPython, with `\r\n` as a single
boundary). -/
def isLineBreakChar (c : Char) : Bool :=
  c = '\n' || c = '\r' || c = '\x0b' || c = '\x0c' || c = '\x1c' ||
  c = '\x1d' || c = '\x1e' || c = '\x85' || c = '\u2028' || c = '\u2029'

def splitlinesAux : List Char → List Char → List (List Char)
  | [], acc => if acc = [] then [] else [acc.reverse]
  | '\r' :: '\n' :: rest, acc => acc.reverse :: splitlinesAux rest []
  | c :: rest, acc =>
    if isLineBreakChar c then acc.reverse :: splitlinesAux rest []
    else splitlinesAux rest (c :: acc)

def pySplitlines (l : List Char) : List (List Char) := splitlinesAux l []

/-- `parse_actors(src)` (lines 35-167). -/
def parse_actors (src : String) : List Actor :=
  parse_actors_lines (pySplitlines src.data)

/-- The quick-reference input signature of `generate_markdown`
(line 185): `type[count]`, or `void` when the input type is `void`. -/
def renderInSig (a : Actor) : List Char :=
  if ¬ (a.in_type = "void".data) then
    a.in_type ++ "[".data ++ a.in_count ++ "]".data
  else "void".data

/-- The quick-reference output signature (lines 186-190). -/
def renderOutSig (a : Actor) : List Char :=
  if ¬ (a.out_type = "void".data) then
    a.out_type ++ "[".data ++ a.out_count ++ "]".data
  else "void".data

/-- `a["group"] or "Other"` (line 198): Python `or` takes the fallback for
`None` and also for an empty string. -/
def bucketOf (a : Actor) : List Char :=
  match a.group with
  | none => "Other".data
  | some g => if g = [] then "Other".data else g

/-- `groups.setdefault(g, []).append(a)` on an insertion-ordered dict
(line 199): append to the existing bucket, else add a new bucket at the
end. -/
def addToGroups : List (List Char × List Actor) → List Char → Actor →
    List (List Char × List Actor)
  | [], k, a => [(k, [a])]
  | (k', l) :: rest, k, a =>
    if k' = k then (k', l ++ [a]) :: rest
    else (k', l) :: addToGroups rest k a

/-- The grouping pass of `generate_markdown` (lines 196-199): buckets keyed
by `bucketOf`, in insertion order. -/
def groupActors (actors : List Actor) : List (List Char × List Actor) :=
  actors.foldl (fun gs a => addToGroups gs (bucketOf a) a) []

end GenStdlibDoc

namespace GenStdlibDoc

/-- First-seen order of a list of keys: the order in which each distinct
value first occurs (the iteration order of a Python insertion-ordered
dict built by `setdefault`). -/
def firstSeenKeys (ks : List (List Char)) : List (List Char) :=
  ks.foldl (fun acc k => if k ∈ acc then acc else acc ++ [k]) []

/-- Claim C8's category key: the record's category, or the fixed "Other"
bucket for records with no category. -/
def claimKey (a : Actor) : List Char := a.group.getD "Other".data

end GenStdlibDoc

namespace GenStdlibDoc

/-- Scanner variant that follows claim C2's wording for file-preamble
suppression instead of the code: suppress mode is left only at the first
line that is neither comment-prefixed nor blank, so blank lines are
consumed while suppressed.  It differs from `scanLoopF` in its second
branch only and exists solely to be compared against `scanLoopF`. -/
def scanLoopC2F : Nat → List (List Char) → Option (List Char) → Bool →
    List Actor → Option (List Actor)
  | 0, _, _, _, _ => none
  | _ + 1, [], _, _, acc => some acc
  | f + 1, l :: rest, g, fb, acc =>
    let s := pyStrip l
    if isFileLine s then scanLoopC2F f rest g true acc
    else if fb ∧ (hasPre "///".data s ∨ s = []) then scanLoopC2F f rest g true acc
    else
      match matchDefgroup s with
      | some t => scanLoopC2F f rest (some t) false acc
      | none =>
        if isGroupEnd s then scanLoopC2F f rest g false acc
        else
          match matchBrief s with
          | some b =>
            let p1 := docLoop rest (initActor g b) false
            let p2 := findActor (rest.drop p1.2) p1.1
            let acc2 := if p2.1.name = [] then acc else acc ++ [p2.1]
            scanLoopC2F f (((rest.drop p1.2).drop p2.2).drop 1) g false acc2
          | none => scanLoopC2F f rest g false acc

/-- The claim-C2 variant scanner run like `parse_actors`. -/
def parse_actorsClaimC2 (src : String) : List Actor :=
  (scanLoopC2F ((pySplitlines src.data).length + 1) (pySplitlines src.data)
    none false []).getD []

/-- Claim C6's category observer: the title of the nearest group-marker
line in a list of lines (to be applied to the lines preceding a record's
summary marker). -/
def lastDefgroupTitle (lines : List (List Char)) : Option (List Char) :=
  lines.foldl (fun g l =>
    match matchDefgroup (pyStrip l) with
    | some t => some t
    | none => g) none

/-- Header text of claim C5's concrete scenario. -/
def srcC5 : String :=
  "/// @brief Adds two numbers\n/// @param a first operand\n/// @param b second operand\n/// @return the sum\nACTOR(add, IN(int32, 2), OUT(int32, 1)) \x7b"

/-- The record claim C5 requires for `srcC5`. -/
def addRecord : Actor :=
  { group := none, brief := "Adds two numbers".data, description := []
    params := [("a".data, "first operand".data), ("b".data, "second operand".data)]
    returns := "the sum".data, exampleLines := []
    signature := "ACTOR(add, IN(int32, 2), OUT(int32, 1))".data
    name := "add".data, in_type := "int32".data, in_count := "2".data
    out_type := "int32".data, out_count := "1".data }

/-- Input refuting claim C1: two summary markers with no declaration
between them, then a declaration. -/
def cexC1 : String :=
  "/// @brief A\n/// @brief B\nACTOR(f, IN(int32, 1), OUT(int32, 1)) \x7b"

/-- Input refuting claim C2: a file-level marker, one preamble line, a
blank line, then a doc block with its declaration. -/
def cexC2 : String :=
  "/// @file\n/// preamble\n\n/// @brief A\nACTOR(add, IN(int32, 2), OUT(int32, 1)) \x7b"

/-- Input refuting claim C4: a doc block whose code sample contains a
fully blank line, with a parameter line outside the sample. -/
def cexC4 : String :=
  "/// @brief A\n/// intro\n/// Example usage:\n/// @param a first\n/// @code\x7b.pdl\x7d\n/// x = 1\n\n/// y = 2\n///\n/// @endcode\nACTOR(f, IN(int32, 1), OUT(int32, 1)) \x7b"

/-- Input refuting claim C6: a group marker that precedes the second
record's summary marker textually but is consumed by the first block's
declaration search. -/
def cexC6 : String :=
  "/// @defgroup g1 Alpha\n/// @brief A\nxyz\n/// @defgroup g2 Beta\nACTOR(f, IN(int32, 1), OUT(int32, 1)) \x7b\n/// @brief B\nACTOR(g, IN(int32, 1), OUT(int32, 1)) \x7b"

/-- Record produced by the witness input of claim C6's amended theorem. -/
def c6WitnessRecord : Actor :=
  { group := some "M".data, brief := "A".data, description := []
    params := [], returns := [], exampleLines := []
    signature := "ACTOR(f, IN(int32, 1), OUT(int32, 1))".data
    name := "f".data, in_type := "int32".data, in_count := "1".data
    out_type := "int32".data, out_count := "1".data }

/-- Record produced by the witness input of claim C10. -/
def c10WitnessRecord : Actor :=
  { group := none, brief := "A".data, description := ["body text".data]
    params := [], returns := [], exampleLines := []
    signature := "ACTOR(f, IN(int32, 1), OUT(int32, 1))".data
    name := "f".data, in_type := "int32".data, in_count := "1".data
    out_type := "int32".data, out_count := "1".data }

/-- Two records exercising the witness of claim C8. -/
def c8RecordA : Actor := initActor (some "G".data) "a".data

def c8RecordB : Actor := initActor none "b".data

end GenStdlibDoc

namespace GenStdlibDoc

theorem dropLit_append (p r : List Char) : dropLit p (p ++ r) = some r := by
  induction p with
  | nil => rfl
  | cons c cs ih => simp [dropLit, ih]

theorem dropLit_eq_some {p s r : List Char} : dropLit p s = some r → s = p ++ r := by
  induction p generalizing s with
  | nil => intro h; simp only [dropLit, Option.some.injEq] at h; simp [h]
  | cons c cs ih =>
    intro h
    cases s with
    | nil => simp [dropLit] at h
    | cons a as =>
      simp only [dropLit] at h
      split at h
      · rename_i hac
        rw [List.cons_append, ← ih h, hac]
      · exact absurd h (by simp)

theorem hasPre_iff {p s : List Char} : hasPre p s = true ↔ ∃ r, s = p ++ r := by
  unfold hasPre
  constructor
  · intro h
    cases hd : dropLit p s with
    | none => rw [hd] at h; simp at h
    | some r => exact ⟨r, dropLit_eq_some hd⟩
  · rintro ⟨r, rfl⟩
    rw [dropLit_append]
    rfl

theorem hasPre_append_left {p q s : List Char} (h : hasPre (p ++ q) s = true) :
    hasPre p s = true := by
  rcases hasPre_iff.mp h with ⟨r, rfl⟩
  exact hasPre_iff.mpr ⟨q ++ r, by simp⟩

theorem takeWhile_append_all {p : Char → Bool} {l₁ l₂ : List Char}
    (h : ∀ c ∈ l₁, p c = true) :
    (l₁ ++ l₂).takeWhile p = l₁ ++ l₂.takeWhile p := by
  induction l₁ with
  | nil => simp
  | cons c cs ih =>
    simp only [List.cons_append, List.takeWhile_cons, h c (by simp)]
    rw [ih (fun d hd => h d (by simp [hd]))]
    simp

theorem dropWhile_append_all {p : Char → Bool} {l₁ l₂ : List Char}
    (h : ∀ c ∈ l₁, p c = true) :
    (l₁ ++ l₂).dropWhile p = l₂.dropWhile p := by
  induction l₁ with
  | nil => simp
  | cons c cs ih =>
    simp only [List.cons_append, List.dropWhile_cons, h c (by simp)]
    exact ih (fun d hd => h d (by simp [hd]))

theorem stripLeft_eq_self {l : List Char}
    (h : ∀ c, l.head? = some c → pyIsSpace c = false) : stripLeft l = l := by
  cases l with
  | nil => rfl
  | cons a t => simp [stripLeft, List.dropWhile_cons, h a rfl]

theorem stripRight_eq_self {l : List Char}
    (h : ∀ c, l.getLast? = some c → pyIsSpace c = false) : stripRight l = l := by
  unfold stripRight
  have h2 : l.reverse.dropWhile pyIsSpace = l.reverse := by
    cases hr : l.reverse with
    | nil => rfl
    | cons a t =>
      have ha : l.getLast? = some a := by rw [← List.head?_reverse, hr]; rfl
      simp [List.dropWhile_cons, h a ha]
  rw [h2, List.reverse_reverse]

theorem pyStrip_eq_self {l : List Char}
    (h1 : ∀ c, l.head? = some c → pyIsSpace c = false)
    (h2 : ∀ c, l.getLast? = some c → pyIsSpace c = false) : pyStrip l = l := by
  unfold pyStrip
  rw [stripLeft_eq_self h1, stripRight_eq_self h2]

theorem not_space_of_word {c : Char} (h : isWordChar c = true) : pyIsSpace c = false := by
  cases hx : pyIsSpace c
  · rfl
  · exfalso
    simp only [pyIsSpace, Bool.or_eq_true, decide_eq_true_eq] at hx
    rcases hx with ((((h' | h') | h') | h') | h') | h' <;> subst h' <;> revert h <;> decide

theorem token_take (t r : List Char) (hW : ∀ c ∈ t, isWordChar c = true)
    (h0 : r.takeWhile isWordChar = []) :
    (t ++ r).takeWhile isWordChar = t := by
  rw [takeWhile_append_all hW, h0, List.append_nil]

theorem token_drop (t r : List Char) (hW : ∀ c ∈ t, isWordChar c = true)
    (h0 : r.dropWhile isWordChar = r) :
    (t ++ r).dropWhile isWordChar = r := by
  rw [dropWhile_append_all hW, h0]

end GenStdlibDoc

namespace GenStdlibDoc

theorem matchBrief_shape {s t : List Char} (h : matchBrief s = some t) :
    ∃ r, s = "/// @brief".data ++ r := by
  unfold matchBrief at h
  cases hd : dropLit "/// @brief".data s with
  | none => rw [hd] at h; simp at h
  | some r => exact ⟨r, dropLit_eq_some hd⟩

theorem matchDefgroup_shape {s t : List Char} (h : matchDefgroup s = some t) :
    ∃ r, s = "/// @defgroup".data ++ r := by
  unfold matchDefgroup at h
  cases hd : dropLit "/// @defgroup".data s with
  | none => rw [hd] at h; simp at h
  | some r => exact ⟨r, dropLit_eq_some hd⟩

theorem matchDocLine_shape {s t : List Char} (h : matchDocLine s = some t) :
    hasPre "///".data s = true := by
  unfold matchDocLine at h
  cases hd : dropLit "///".data s with
  | none => rw [hd] at h; simp at h
  | some r => unfold hasPre; rw [hd]; rfl

theorem matchParam_shape {s : List Char} {pr : List Char × List Char} (h : matchParam s = some pr) :
    ∃ r, s = "/// @param".data ++ r := by
  unfold matchParam at h
  cases hd : dropLit "/// @param".data s with
  | none => rw [hd] at h; simp at h
  | some r => exact ⟨r, dropLit_eq_some hd⟩

theorem isFileLine_of_brief {s t : List Char} (h : matchBrief s = some t) :
    isFileLine s = false := by
  rcases matchBrief_shape h with ⟨r, rfl⟩
  rfl

theorem matchDefgroup_of_brief {s t : List Char} (h : matchBrief s = some t) :
    matchDefgroup s = none := by
  rcases matchBrief_shape h with ⟨r, rfl⟩
  rfl

theorem isGroupEnd_of_brief {s t : List Char} (h : matchBrief s = some t) :
    isGroupEnd s = false := by
  rcases matchBrief_shape h with ⟨r, rfl⟩
  rfl

theorem isFileLine_of_defgroup {s t : List Char} (h : matchDefgroup s = some t) :
    isFileLine s = false := by
  rcases matchDefgroup_shape h with ⟨r, rfl⟩
  rfl

theorem isFileLine_hasPre {s : List Char} (h : isFileLine s = true) :
    hasPre "///".data s = true := by
  have e : "///".data ++ " @file".data = "/// @file".data := by rfl
  apply hasPre_append_left (q := " @file".data)
  rw [e]
  exact h

theorem scanLoopF_nil (f : Nat) (g : Option (List Char)) (fb : Bool) (acc : List Actor) :
    scanLoopF (f + 1) [] g fb acc = some acc := rfl

theorem scanLoopF_file {f : Nat} {l : List Char} {rest : List (List Char)}
    {g : Option (List Char)} {fb : Bool} {acc : List Actor}
    (h : isFileLine (pyStrip l) = true) :
    scanLoopF (f + 1) (l :: rest) g fb acc = scanLoopF f rest g true acc := by
  simp [scanLoopF, h]

theorem scanLoopF_suppress {f : Nat} {l : List Char} {rest : List (List Char)}
    {g : Option (List Char)} {acc : List Actor}
    (h : hasPre "///".data (pyStrip l) = true) :
    scanLoopF (f + 1) (l :: rest) g true acc = scanLoopF f rest g true acc := by
  by_cases hf : isFileLine (pyStrip l) = true
  · simp [scanLoopF, hf]
  · simp [scanLoopF, hf, h]

theorem scanLoopF_suppress_exit {f : Nat} {l : List Char} {rest : List (List Char)}
    {g : Option (List Char)} {acc : List Actor}
    (h : hasPre "///".data (pyStrip l) = false) :
    scanLoopF (f + 1) (l :: rest) g true acc = scanLoopF (f + 1) (l :: rest) g false acc := by
  have hf : isFileLine (pyStrip l) = false := by
    cases hx : isFileLine (pyStrip l)
    · rfl
    · rw [isFileLine_hasPre hx] at h; cases h
  simp [scanLoopF, hf, h]

theorem scanLoopF_defgroup {f : Nat} {l : List Char} {rest : List (List Char)}
    {g : Option (List Char)} {acc : List Actor} {t : List Char}
    (h : matchDefgroup (pyStrip l) = some t) :
    scanLoopF (f + 1) (l :: rest) g false acc = scanLoopF f rest (some t) false acc := by
  simp [scanLoopF, isFileLine_of_defgroup h, h]

theorem scanLoopF_brief {f : Nat} {l : List Char} {rest : List (List Char)}
    {g : Option (List Char)} {acc : List Actor} {t : List Char}
    (h : matchBrief (pyStrip l) = some t) :
    scanLoopF (f + 1) (l :: rest) g false acc =
      scanLoopF f
        (((rest.drop (docLoop rest (initActor g t) false).2).drop
            (findActor (rest.drop (docLoop rest (initActor g t) false).2)
              (docLoop rest (initActor g t) false).1).2).drop 1) g false
        (if (findActor (rest.drop (docLoop rest (initActor g t) false).2)
              (docLoop rest (initActor g t) false).1).1.name = [] then acc
         else acc ++ [(findActor (rest.drop (docLoop rest (initActor g t) false).2)
              (docLoop rest (initActor g t) false).1).1]) := by
  simp [scanLoopF, isFileLine_of_brief h, matchDefgroup_of_brief h, isGroupEnd_of_brief h, h]

theorem docLoop_break {l : List Char} {rest : List (List Char)} {a : Actor} {c : Bool}
    (h1 : hasPre "///".data (pyStrip l) = false) (h2 : ¬ (pyStrip l = [])) :
    docLoop (l :: rest) a c = (a, 0) := by
  simp [docLoop, h1, h2]

theorem findActor_found {l : List Char} {rest : List (List Char)} {a : Actor}
    {n it ic ot oc : List Char}
    (h : searchActor (pyStrip l) = some (n, it, ic, ot, oc)) :
    findActor (l :: rest) a =
      ({ a with name := n, in_type := it, in_count := ic, out_type := ot
                out_count := oc
                signature := pyStrip (List.intercalate [' '] (sigLoop (l :: rest) []).1) },
        (sigLoop (l :: rest) []).2) := by
  simp [findActor, h]

theorem searchActor_of_actorAt {s : List Char}
    {t : List Char × List Char × List Char × List Char × List Char}
    (hne : ¬ (s = [])) (h : actorAt s = some t) : searchActor s = some t := by
  cases s with
  | nil => exact absurd rfl hne
  | cons c cs => simp [searchActor, h]

end GenStdlibDoc

namespace GenStdlibDoc

theorem matchBrief_of_groupEnd {s : List Char} (h : isGroupEnd s = true) :
    matchBrief s = none := by
  rcases hasPre_iff.mp h with ⟨r, rfl⟩
  rfl

theorem scanLoopF_groupEnd {f : Nat} {l : List Char} {rest : List (List Char)}
    {g : Option (List Char)} {acc : List Actor}
    (h : isGroupEnd (pyStrip l) = true) :
    scanLoopF (f + 1) (l :: rest) g false acc = scanLoopF f rest g false acc := by
  rcases hasPre_iff.mp h with ⟨r, hr⟩
  have h1 : isFileLine (pyStrip l) = false := by rw [hr]; rfl
  have h2 : matchDefgroup (pyStrip l) = none := by rw [hr]; rfl
  simp [scanLoopF, h1, h2, h]

theorem scanLoopF_other {f : Nat} {l : List Char} {rest : List (List Char)}
    {g : Option (List Char)} {acc : List Actor}
    (h1 : isFileLine (pyStrip l) = false) (h2 : matchDefgroup (pyStrip l) = none)
    (h3 : isGroupEnd (pyStrip l) = false) (h4 : matchBrief (pyStrip l) = none) :
    scanLoopF (f + 1) (l :: rest) g false acc = scanLoopF f rest g false acc := by
  simp [scanLoopF, h1, h2, h3, h4]

theorem docLoop_shape : ∀ (ls : List (List Char)) (a : Actor) (c : Bool),
    ∃ d p r e, (docLoop ls a c).1 =
      { a with description := d, params := p, returns := r, exampleLines := e } := by
  intro ls
  induction ls with
  | nil =>
    intro a c
    exact ⟨a.description, a.params, a.returns, a.exampleLines, rfl⟩
  | cons l rest ih =>
    intro a c
    unfold docLoop
    dsimp only
    repeat' split
    all_goals
      first
      | exact ⟨a.description, a.params, a.returns, a.exampleLines, rfl⟩
      | exact ih _ _

theorem findActor_shape : ∀ (ls : List (List Char)) (a : Actor),
    ∃ nm t1 c1 t2 c2 sg, (findActor ls a).1 =
      { a with name := nm, in_type := t1, in_count := c1, out_type := t2
               out_count := c2, signature := sg } := by
  intro ls
  induction ls with
  | nil =>
    intro a
    exact ⟨a.name, a.in_type, a.in_count, a.out_type, a.out_count, a.signature, rfl⟩
  | cons l rest ih =>
    intro a
    unfold findActor
    dsimp only
    split
    · exact ⟨_, _, _, _, _, _, rfl⟩
    · exact ih _

theorem docLoop_desc : ∀ (ls : List (List Char)) (a : Actor) (c : Bool),
    ∀ d ∈ (docLoop ls a c).1.description,
      d ∈ a.description ∨ (¬ (d = []) ∧ ¬ (d = "Example usage:".data)) := by
  intro ls
  induction ls with
  | nil => intro a c d hd; exact Or.inl hd
  | cons l rest ih =>
    intro a c d hd
    rw [docLoop] at hd
    dsimp only at hd
    repeat' split at hd
    case _ => exact Or.inl hd
    all_goals try (have hres := ih _ _ d hd; exact Or.imp id id hres)
    rename_i hguard
    have hres := ih _ _ d hd
    rcases hres with hm | hp
    · rcases List.mem_append.mp hm with hin | hsing
      · exact Or.inl hin
      · rw [List.mem_singleton.mp hsing]
        exact Or.inr hguard
    · exact Or.inr hp

theorem findActor_none : ∀ (ls : List (List Char)) (a : Actor),
    (∀ l ∈ ls, searchActor (pyStrip l) = none) → findActor ls a = (a, ls.length) := by
  intro ls
  induction ls with
  | nil => intro a _; rfl
  | cons l rest ih =>
    intro a h
    have h0 := h l (by simp)
    simp [findActor, h0, ih a (fun x hx => h x (by simp [hx]))]

theorem scanLoopF_total : ∀ (f : Nat) (lines : List (List Char)) (g : Option (List Char))
    (fb : Bool) (acc : List Actor), lines.length < f →
    (scanLoopF f lines g fb acc).isSome = true := by
  intro f
  induction f with
  | zero => intro lines g fb acc h; exact absurd h (Nat.not_lt_zero _)
  | succ n ih =>
    intro lines g fb acc h
    cases lines with
    | nil => rfl
    | cons l rest =>
      unfold scanLoopF
      dsimp only
      repeat' split
      all_goals apply ih
      all_goals simp only [List.length_cons, List.length_drop] at h ⊢
      all_goals omega

end GenStdlibDoc

namespace GenStdlibDoc

theorem scanLoopF_fuel : ∀ (f₁ f₂ : Nat) (lines : List (List Char))
    (g : Option (List Char)) (fb : Bool) (acc : List Actor),
    lines.length < f₁ → lines.length < f₂ →
    scanLoopF f₁ lines g fb acc = scanLoopF f₂ lines g fb acc := by
  intro f₁
  induction f₁ with
  | zero => intro f₂ lines g fb acc h1 _; exact absurd h1 (Nat.not_lt_zero _)
  | succ n ih =>
    intro f₂ lines g fb acc h1 h2
    cases f₂ with
    | zero => exact absurd h2 (Nat.not_lt_zero _)
    | succ m =>
      cases lines with
      | nil => rfl
      | cons l rest =>
        have hr : rest.length < n := by simp only [List.length_cons] at h1; omega
        have hr2 : rest.length < m := by simp only [List.length_cons] at h2; omega
        have hnorm : scanLoopF (n + 1) (l :: rest) g false acc =
            scanLoopF (m + 1) (l :: rest) g false acc := by
          by_cases hfile : isFileLine (pyStrip l) = true
          · rw [scanLoopF_file hfile, scanLoopF_file hfile]
            exact ih _ _ _ _ _ hr hr2
          · have hfile' : isFileLine (pyStrip l) = false := by simpa using hfile
            cases hdg : matchDefgroup (pyStrip l) with
            | some t =>
              rw [scanLoopF_defgroup hdg, scanLoopF_defgroup hdg]
              exact ih _ _ _ _ _ hr hr2
            | none =>
              by_cases hge : isGroupEnd (pyStrip l) = true
              · rw [scanLoopF_groupEnd hge, scanLoopF_groupEnd hge]
                exact ih _ _ _ _ _ hr hr2
              · have hge' : isGroupEnd (pyStrip l) = false := by simpa using hge
                cases hbr : matchBrief (pyStrip l) with
                | some b =>
                  rw [scanLoopF_brief hbr, scanLoopF_brief hbr]
                  apply ih
                  all_goals simp only [List.length_drop]
                  all_goals omega
                | none =>
                  rw [scanLoopF_other hfile' hdg hge' hbr,
                    scanLoopF_other hfile' hdg hge' hbr]
                  exact ih _ _ _ _ _ hr hr2
        cases fb with
        | false => exact hnorm
        | true =>
          by_cases hfile : isFileLine (pyStrip l) = true
          · rw [scanLoopF_file hfile, scanLoopF_file hfile]
            exact ih _ _ _ _ _ hr hr2
          · by_cases hcp : hasPre "///".data (pyStrip l) = true
            · rw [scanLoopF_suppress hcp, scanLoopF_suppress hcp]
              exact ih _ _ _ _ _ hr hr2
            · have hcp' : hasPre "///".data (pyStrip l) = false := by simpa using hcp
              rw [scanLoopF_suppress_exit hcp', scanLoopF_suppress_exit hcp']
              exact hnorm

theorem blockScan_facts (rest : List (List Char)) (g : Option (List Char)) (b : List Char) :
    (findActor (rest.drop (docLoop rest (initActor g b) false).2)
        (docLoop rest (initActor g b) false).1).1.group = g ∧
    (findActor (rest.drop (docLoop rest (initActor g b) false).2)
        (docLoop rest (initActor g b) false).1).1.brief = b ∧
    (∀ d ∈ (findActor (rest.drop (docLoop rest (initActor g b) false).2)
        (docLoop rest (initActor g b) false).1).1.description,
      ¬ (d = []) ∧ ¬ (d = "Example usage:".data)) := by
  obtain ⟨nm, t1, c1, t2, c2, sg, hf⟩ :=
    findActor_shape (rest.drop (docLoop rest (initActor g b) false).2)
      (docLoop rest (initActor g b) false).1
  obtain ⟨dd, pp, rr, ee, hq⟩ := docLoop_shape rest (initActor g b) false
  refine ⟨?_, ?_, ?_⟩
  · rw [hf]
    show (docLoop rest (initActor g b) false).1.group = g
    rw [hq]
    rfl
  · rw [hf]
    show (docLoop rest (initActor g b) false).1.brief = b
    rw [hq]
    rfl
  · rw [hf]
    intro d hd
    have hd' : d ∈ (docLoop rest (initActor g b) false).1.description := hd
    have := docLoop_desc rest (initActor g b) false d hd'
    rcases this with hin | hp
    · exact absurd hin (List.not_mem_nil d)
    · exact hp

theorem scanLoopF_members : ∀ (f : Nat) (lines : List (List Char))
    (g : Option (List Char)) (fb : Bool) (acc res : List Actor),
    scanLoopF f lines g fb acc = some res → ∀ a ∈ res, a ∈ acc ∨
      ((∀ d ∈ a.description, ¬ (d = []) ∧ ¬ (d = "Example usage:".data)) ∧
       (a.group = g ∨ ∃ l t, l ∈ lines ∧ matchDefgroup (pyStrip l) = some t ∧
          a.group = some t)) := by
  intro f
  induction f with
  | zero => intro lines g fb acc res h; cases h
  | succ n ih =>
    intro lines g fb acc res h
    cases lines with
    | nil =>
      simp only [scanLoopF_nil, Option.some.injEq] at h
      intro a ha
      exact Or.inl (h ▸ ha)
    | cons l rest =>
      have hsub : ∀ (res0 : List Actor) (rest' : List (List Char)),
          (∀ x ∈ rest', x ∈ rest) →
          (∀ a ∈ res0, a ∈ acc ∨
            ((∀ d ∈ a.description, ¬ (d = []) ∧ ¬ (d = "Example usage:".data)) ∧
             (a.group = g ∨ ∃ x t, x ∈ rest' ∧ matchDefgroup (pyStrip x) = some t ∧
                a.group = some t))) →
          (∀ a ∈ res0, a ∈ acc ∨
            ((∀ d ∈ a.description, ¬ (d = []) ∧ ¬ (d = "Example usage:".data)) ∧
             (a.group = g ∨ ∃ x t, x ∈ l :: rest ∧ matchDefgroup (pyStrip x) = some t ∧
                a.group = some t))) := by
        intro res0 rest' hmem hall a ha
        rcases hall a ha with hacc | ⟨hdsc, hgr⟩
        · exact Or.inl hacc
        · refine Or.inr ⟨hdsc, ?_⟩
          rcases hgr with hg | ⟨x, t, hx, hmt, hat⟩
          · exact Or.inl hg
          · exact Or.inr ⟨x, t, by simp [hmem x hx], hmt, hat⟩
      have hcore : ∀ res', scanLoopF (n + 1) (l :: rest) g false acc = some res' →
          ∀ a ∈ res', a ∈ acc ∨
            ((∀ d ∈ a.description, ¬ (d = []) ∧ ¬ (d = "Example usage:".data)) ∧
             (a.group = g ∨ ∃ x t, x ∈ l :: rest ∧ matchDefgroup (pyStrip x) = some t ∧
                a.group = some t)) := by
        intro res' h'
        by_cases hfile : isFileLine (pyStrip l) = true
        · rw [scanLoopF_file hfile] at h'
          intro a ha
          rcases ih _ _ _ _ _ h' a ha with hacc | ⟨hdsc, hgr⟩
          · exact Or.inl hacc
          · refine Or.inr ⟨hdsc, ?_⟩
            rcases hgr with hg | ⟨x, t, hx, hmt, hat⟩
            · exact Or.inl hg
            · exact Or.inr ⟨x, t, by simp [hx], hmt, hat⟩
        · have hfile' : isFileLine (pyStrip l) = false := by simpa using hfile
          cases hdg : matchDefgroup (pyStrip l) with
          | some t0 =>
            rw [scanLoopF_defgroup hdg] at h'
            intro a ha
            rcases ih _ _ _ _ _ h' a ha with hacc | ⟨hdsc, hgr⟩
            · exact Or.inl hacc
            · refine Or.inr ⟨hdsc, ?_⟩
              rcases hgr with hg | ⟨x, t, hx, hmt, hat⟩
              · exact Or.inr ⟨l, t0, by simp, hdg, hg⟩
              · exact Or.inr ⟨x, t, by simp [hx], hmt, hat⟩
          | none =>
            by_cases hge : isGroupEnd (pyStrip l) = true
            · rw [scanLoopF_groupEnd hge] at h'
              intro a ha
              rcases ih _ _ _ _ _ h' a ha with hacc | ⟨hdsc, hgr⟩
              · exact Or.inl hacc
              · refine Or.inr ⟨hdsc, ?_⟩
                rcases hgr with hg | ⟨x, t, hx, hmt, hat⟩
                · exact Or.inl hg
                · exact Or.inr ⟨x, t, by simp [hx], hmt, hat⟩
            · have hge' : isGroupEnd (pyStrip l) = false := by simpa using hge
              cases hbr : matchBrief (pyStrip l) with
              | some b =>
                rw [scanLoopF_brief hbr] at h'
                intro a ha
                rcases ih _ _ _ _ _ h' a ha with hacc | ⟨hdsc, hgr⟩
                · -- a came from acc2 = acc possibly extended with the block actor
                  by_cases hnm : (findActor
                      (rest.drop (docLoop rest (initActor g b) false).2)
                      (docLoop rest (initActor g b) false).1).1.name = []
                  · rw [if_pos hnm] at hacc
                    exact Or.inl hacc
                  · rw [if_neg hnm] at hacc
                    rcases List.mem_append.mp hacc with hin | hone
                    · exact Or.inl hin
                    · obtain ⟨hgr2, hbr2, hdsc2⟩ := blockScan_facts rest g b
                      rw [List.mem_singleton.mp hone]
                      exact Or.inr ⟨hdsc2, Or.inl hgr2⟩
                · refine Or.inr ⟨hdsc, ?_⟩
                  rcases hgr with hg | ⟨x, t, hx, hmt, hat⟩
                  · exact Or.inl hg
                  · refine Or.inr ⟨x, t, ?_, hmt, hat⟩
                    have : x ∈ rest :=
                      List.drop_subset _ _ (List.drop_subset _ _ (List.drop_subset _ _ hx))
                    simp [this]
              | none =>
                rw [scanLoopF_other hfile' hdg hge' hbr] at h'
                exact hsub res' rest (fun x hx => hx) (ih _ _ _ _ _ h')
      cases fb with
      | false => exact hcore res h
      | true =>
        by_cases hfile : isFileLine (pyStrip l) = true
        · rw [scanLoopF_file hfile] at h
          exact hsub res rest (fun x hx => hx) (ih _ _ _ _ _ h)
        · by_cases hcp : hasPre "///".data (pyStrip l) = true
          · rw [scanLoopF_suppress hcp] at h
            exact hsub res rest (fun x hx => hx) (ih _ _ _ _ _ h)
          · have hcp' : hasPre "///".data (pyStrip l) = false := by simpa using hcp
            rw [scanLoopF_suppress_exit hcp'] at h
            exact hcore res h

end GenStdlibDoc

namespace GenStdlibDoc

theorem scanLoopF_no_actor : ∀ (f : Nat) (lines : List (List Char))
    (g : Option (List Char)) (fb : Bool) (acc res : List Actor),
    (∀ l ∈ lines, searchActor (pyStrip l) = none) →
    scanLoopF f lines g fb acc = some res → res = acc := by
  intro f
  induction f with
  | zero => intro lines g fb acc res _ h; cases h
  | succ n ih =>
    intro lines g fb acc res hno h
    cases lines with
    | nil => simp only [scanLoopF_nil, Option.some.injEq] at h; exact h.symm
    | cons l rest =>
      have hrest : ∀ x ∈ rest, searchActor (pyStrip x) = none :=
        fun x hx => hno x (by simp [hx])
      have hcore : ∀ res', scanLoopF (n + 1) (l :: rest) g false acc = some res' →
          res' = acc := by
        intro res' h'
        by_cases hfile : isFileLine (pyStrip l) = true
        · rw [scanLoopF_file hfile] at h'
          exact ih _ _ _ _ _ hrest h'
        · have hfile' : isFileLine (pyStrip l) = false := by simpa using hfile
          cases hdg : matchDefgroup (pyStrip l) with
          | some t0 =>
            rw [scanLoopF_defgroup hdg] at h'
            exact ih _ _ _ _ _ hrest h'
          | none =>
            by_cases hge : isGroupEnd (pyStrip l) = true
            · rw [scanLoopF_groupEnd hge] at h'
              exact ih _ _ _ _ _ hrest h'
            · have hge' : isGroupEnd (pyStrip l) = false := by simpa using hge
              cases hbr : matchBrief (pyStrip l) with
              | some b =>
                rw [scanLoopF_brief hbr] at h'
                have hd1 : ∀ x ∈ rest.drop (docLoop rest (initActor g b) false).2,
                    searchActor (pyStrip x) = none :=
                  fun x hx => hrest x (List.drop_subset _ _ hx)
                rw [findActor_none _ _ hd1] at h'
                obtain ⟨dd, pp, rr, ee, hq⟩ := docLoop_shape rest (initActor g b) false
                have hcond : ((docLoop rest (initActor g b) false).1,
                    (rest.drop (docLoop rest (initActor g b) false).2).length).1.name = [] := by
                  show (docLoop rest (initActor g b) false).1.name = []
                  rw [hq]
                  rfl
                rw [if_pos hcond] at h'
                refine ih _ _ _ _ _ ?_ h'
                intro x hx
                exact hrest x
                  (List.drop_subset _ _ (List.drop_subset _ _ (List.drop_subset _ _ hx)))
              | none =>
                rw [scanLoopF_other hfile' hdg hge' hbr] at h'
                exact ih _ _ _ _ _ hrest h'
      cases fb with
      | false => exact hcore res h
      | true =>
        by_cases hfile : isFileLine (pyStrip l) = true
        · rw [scanLoopF_file hfile] at h
          exact ih _ _ _ _ _ hrest h
        · by_cases hcp : hasPre "///".data (pyStrip l) = true
          · rw [scanLoopF_suppress hcp] at h
            exact ih _ _ _ _ _ hrest h
          · have hcp' : hasPre "///".data (pyStrip l) = false := by simpa using hcp
            rw [scanLoopF_suppress_exit hcp'] at h
            exact hcore res h

theorem filter_length_cons_le {p : List Char → Bool} (l : List Char)
    (rest : List (List Char)) :
    (rest.filter p).length ≤ ((l :: rest).filter p).length := by
  simp only [List.filter_cons]
  split
  · simp
  · exact Nat.le_refl _

theorem scanLoopF_length : ∀ (f : Nat) (lines : List (List Char))
    (g : Option (List Char)) (fb : Bool) (acc res : List Actor),
    scanLoopF f lines g fb acc = some res →
    res.length ≤ acc.length +
      (lines.filter (fun l => (matchBrief (pyStrip l)).isSome)).length := by
  intro f
  induction f with
  | zero => intro lines g fb acc res h; cases h
  | succ n ih =>
    intro lines g fb acc res h
    cases lines with
    | nil =>
      simp only [scanLoopF_nil, Option.some.injEq] at h
      simp [← h]
    | cons l rest =>
      have hmono : ∀ res' acc', scanLoopF n rest g false acc' = some res' → True := fun _ _ _ => trivial
      have hcore : ∀ res', scanLoopF (n + 1) (l :: rest) g false acc = some res' →
          res'.length ≤ acc.length +
            (((l :: rest)).filter (fun x => (matchBrief (pyStrip x)).isSome)).length := by
        intro res' h'
        by_cases hfile : isFileLine (pyStrip l) = true
        · rw [scanLoopF_file hfile] at h'
          exact (ih _ _ _ _ _ h').trans (by
            have := filter_length_cons_le (p := fun x => (matchBrief (pyStrip x)).isSome) l rest
            omega)
        · have hfile' : isFileLine (pyStrip l) = false := by simpa using hfile
          cases hdg : matchDefgroup (pyStrip l) with
          | some t0 =>
            rw [scanLoopF_defgroup hdg] at h'
            exact (ih _ _ _ _ _ h').trans (by
              have := filter_length_cons_le (p := fun x => (matchBrief (pyStrip x)).isSome) l rest
              omega)
          | none =>
            by_cases hge : isGroupEnd (pyStrip l) = true
            · rw [scanLoopF_groupEnd hge] at h'
              exact (ih _ _ _ _ _ h').trans (by
                have := filter_length_cons_le (p := fun x => (matchBrief (pyStrip x)).isSome) l rest
                omega)
            · have hge' : isGroupEnd (pyStrip l) = false := by simpa using hge
              cases hbr : matchBrief (pyStrip l) with
              | some b =>
                rw [scanLoopF_brief hbr] at h'
                have hrec := ih _ _ _ _ _ h'
                have hcc : ((l :: rest).filter
                    (fun x => (matchBrief (pyStrip x)).isSome)).length =
                    (rest.filter (fun x => (matchBrief (pyStrip x)).isSome)).length + 1 := by
                  simp [List.filter_cons, hbr]
                have hdropped : ((((rest.drop (docLoop rest (initActor g b) false).2).drop
                      (findActor (rest.drop (docLoop rest (initActor g b) false).2)
                        (docLoop rest (initActor g b) false).1).2).drop 1).filter
                    (fun x => (matchBrief (pyStrip x)).isSome)).length ≤
                    (rest.filter (fun x => (matchBrief (pyStrip x)).isSome)).length := by
                  refine List.Sublist.length_le (List.Sublist.filter _ ?_)
                  exact ((List.drop_sublist _ _).trans
                    ((List.drop_sublist _ _).trans (List.drop_sublist _ _)))
                have hacc2 : (if (findActor (rest.drop (docLoop rest (initActor g b) false).2)
                      (docLoop rest (initActor g b) false).1).1.name = [] then acc
                    else acc ++ [(findActor (rest.drop (docLoop rest (initActor g b) false).2)
                      (docLoop rest (initActor g b) false).1).1]).length ≤ acc.length + 1 := by
                  split
                  · omega
                  · simp
                omega
              | none =>
                rw [scanLoopF_other hfile' hdg hge' hbr] at h'
                exact (ih _ _ _ _ _ h').trans (by
                  have := filter_length_cons_le (p := fun x => (matchBrief (pyStrip x)).isSome) l rest
                  omega)
      cases fb with
      | false => exact hcore res h
      | true =>
        by_cases hfile : isFileLine (pyStrip l) = true
        · rw [scanLoopF_file hfile] at h
          exact (ih _ _ _ _ _ h).trans (by
            have := filter_length_cons_le (p := fun x => (matchBrief (pyStrip x)).isSome) l rest
            omega)
        · by_cases hcp : hasPre "///".data (pyStrip l) = true
          · rw [scanLoopF_suppress hcp] at h
            exact (ih _ _ _ _ _ h).trans (by
              have := filter_length_cons_le (p := fun x => (matchBrief (pyStrip x)).isSome) l rest
              omega)
          · have hcp' : hasPre "///".data (pyStrip l) = false := by simpa using hcp
            rw [scanLoopF_suppress_exit hcp'] at h
            exact hcore res h

end GenStdlibDoc

namespace GenStdlibDoc

theorem hasPre_of_param {s : List Char} {pr : List Char × List Char}
    (h : matchParam s = some pr) : hasPre "///".data s = true := by
  rcases matchParam_shape h with ⟨r, rfl⟩
  exact hasPre_iff.mpr ⟨" @param".data ++ r, by simp⟩

theorem docLoop_blank {l : List Char} {rest : List (List Char)} {a : Actor} {c : Bool}
    (h : pyStrip l = []) :
    docLoop (l :: rest) a c = ((docLoop rest a c).1, (docLoop rest a c).2 + 1) := by
  simp [docLoop, h]

theorem docLoop_example {l : List Char} {rest : List (List Char)} {a : Actor}
    {t : List Char} (h : matchDocLine (pyStrip l) = some t)
    (h1 : isCodeStart (pyStrip l) = false) (h2 : isCodeEnd (pyStrip l) = false) :
    docLoop (l :: rest) a true =
      ((docLoop rest { a with exampleLines := a.exampleLines ++ [t] } true).1,
       (docLoop rest { a with exampleLines := a.exampleLines ++ [t] } true).2 + 1) := by
  have hp := matchDocLine_shape h
  have hne : ¬ (pyStrip l = []) := by
    rcases hasPre_iff.mp hp with ⟨r, hr⟩
    rw [hr]
    simp
  simp [docLoop, hp, hne, h1, h2, h]

theorem docLoop_param {l : List Char} {rest : List (List Char)} {a : Actor}
    {pr : List Char × List Char} (h : matchParam (pyStrip l) = some pr)
    (h1 : isCodeStart (pyStrip l) = false) (h2 : isCodeEnd (pyStrip l) = false) :
    docLoop (l :: rest) a false =
      ((docLoop rest { a with params := a.params ++ [pr] } false).1,
       (docLoop rest { a with params := a.params ++ [pr] } false).2 + 1) := by
  have hp := hasPre_of_param h
  have hne : ¬ (pyStrip l = []) := by
    rcases hasPre_iff.mp hp with ⟨r, hr⟩
    rw [hr]
    simp
  simp [docLoop, hp, hne, h1, h2, h]

theorem docLoop_descline {l : List Char} {rest : List (List Char)} {a : Actor}
    {t : List Char} (h : matchDocLine (pyStrip l) = some t)
    (h1 : isCodeStart (pyStrip l) = false) (h2 : isCodeEnd (pyStrip l) = false)
    (h3 : matchParam (pyStrip l) = none) (h4 : matchReturn (pyStrip l) = none)
    (h5 : ¬ (t = [])) (h6 : ¬ (t = "Example usage:".data)) :
    docLoop (l :: rest) a false =
      ((docLoop rest { a with description := a.description ++ [t] } false).1,
       (docLoop rest { a with description := a.description ++ [t] } false).2 + 1) := by
  have hp := matchDocLine_shape h
  have hne : ¬ (pyStrip l = []) := by
    rcases hasPre_iff.mp hp with ⟨r, hr⟩
    rw [hr]
    simp
  simp [docLoop, hp, hne, h1, h2, h3, h4, h, h5, h6]

end GenStdlibDoc

namespace GenStdlibDoc

theorem firstSeenKeys_mem_aux : ∀ (ks acc : List (List Char)) (k : List Char),
    k ∈ ks.foldl (fun acc k => if k ∈ acc then acc else acc ++ [k]) acc ↔
      k ∈ acc ∨ k ∈ ks := by
  intro ks
  induction ks with
  | nil => intro acc k; simp
  | cons k0 ks ih =>
    intro acc k
    simp only [List.foldl_cons]
    rw [ih]
    by_cases h0 : k0 ∈ acc
    · rw [if_pos h0]
      constructor
      · rintro (h | h)
        · exact Or.inl h
        · exact Or.inr (by simp [h])
      · rintro (h | h)
        · exact Or.inl h
        · rcases List.mem_cons.mp h with rfl | h
          · exact Or.inl h0
          · exact Or.inr h
    · rw [if_neg h0]
      constructor
      · rintro (h | h)
        · rcases List.mem_append.mp h with h | h
          · exact Or.inl h
          · exact Or.inr (by simp [List.mem_singleton.mp h])
        · exact Or.inr (by simp [h])
      · rintro (h | h)
        · exact Or.inl (by simp [h])
        · rcases List.mem_cons.mp h with rfl | h
          · exact Or.inl (by simp)
          · exact Or.inr h

theorem firstSeenKeys_mem {ks : List (List Char)} {k : List Char} :
    k ∈ firstSeenKeys ks ↔ k ∈ ks := by
  unfold firstSeenKeys
  rw [firstSeenKeys_mem_aux]
  simp

theorem firstSeenKeys_nodup_aux : ∀ (ks acc : List (List Char)), acc.Nodup →
    (ks.foldl (fun acc k => if k ∈ acc then acc else acc ++ [k]) acc).Nodup := by
  intro ks
  induction ks with
  | nil => intro acc h; exact h
  | cons k0 ks ih =>
    intro acc h
    simp only [List.foldl_cons]
    by_cases h0 : k0 ∈ acc
    · rw [if_pos h0]
      exact ih acc h
    · rw [if_neg h0]
      refine ih _ ?_
      rw [List.nodup_append]
      exact ⟨h, List.nodup_singleton _, by
        intro x hx hx0
        rw [List.mem_singleton.mp hx0] at hx
        exact h0 hx⟩

theorem firstSeenKeys_nodup (ks : List (List Char)) : (firstSeenKeys ks).Nodup :=
  firstSeenKeys_nodup_aux ks [] List.nodup_nil

theorem firstSeenKeys_snoc (ks : List (List Char)) (k : List Char) :
    firstSeenKeys (ks ++ [k]) =
      if k ∈ firstSeenKeys ks then firstSeenKeys ks else firstSeenKeys ks ++ [k] := by
  simp [firstSeenKeys, List.foldl_append]

theorem filter_singleton_miss {a : Actor} {k k' : List Char} (hb : bucketOf a = k)
    (hne : ¬ (k = k')) : [a].filter (fun x => bucketOf x = k') = [] := by
  simp [List.filter_singleton, hb, hne]

theorem addToGroups_mem {as : List Actor} {a : Actor} {k : List Char} :
    ∀ (K : List (List Char)), K.Nodup → k ∈ K → bucketOf a = k →
    addToGroups (K.map (fun k' => (k', as.filter (fun x => bucketOf x = k')))) k a =
      K.map (fun k' => (k', (as ++ [a]).filter (fun x => bucketOf x = k'))) := by
  intro K
  induction K with
  | nil => intro _ h; simp at h
  | cons k0 K ih =>
    intro hnd hk hb
    simp only [List.map_cons, addToGroups]
    by_cases h0 : k0 = k
    · rw [if_pos h0]
      subst h0
      have hfa : (as ++ [a]).filter (fun x => bucketOf x = k0) =
          as.filter (fun x => bucketOf x = k0) ++ [a] := by
        rw [List.filter_append]
        simp [List.filter_singleton, hb]
      rw [hfa]
      have htail : K.map (fun k' => (k', as.filter (fun x => bucketOf x = k'))) =
          K.map (fun k' => (k', (as ++ [a]).filter (fun x => bucketOf x = k'))) := by
        refine List.map_congr_left ?_
        intro k' hk'
        have hne : ¬ (k' = k0) := by
          intro he
          subst he
          exact (List.nodup_cons.mp hnd).1 hk'
        have : (as ++ [a]).filter (fun x => bucketOf x = k') =
            as.filter (fun x => bucketOf x = k') := by
          rw [List.filter_append, filter_singleton_miss hb (fun he => hne he.symm),
            List.append_nil]
        rw [this]
      rw [htail]
    · rw [if_neg h0]
      have hk' : k ∈ K := by
        rcases List.mem_cons.mp hk with rfl | hh
        · exact absurd rfl h0
        · exact hh
      rw [ih (List.nodup_cons.mp hnd).2 hk' hb]
      have hhead : (as ++ [a]).filter (fun x => bucketOf x = k0) =
          as.filter (fun x => bucketOf x = k0) := by
        rw [List.filter_append, filter_singleton_miss hb (fun he => h0 he.symm),
          List.append_nil]
      rw [hhead]

theorem addToGroups_new {as : List Actor} {a : Actor} {k : List Char} :
    ∀ (K : List (List Char)), (∀ k' ∈ K, ¬ (k' = k)) → bucketOf a = k →
    addToGroups (K.map (fun k' => (k', as.filter (fun x => bucketOf x = k')))) k a =
      K.map (fun k' => (k', (as ++ [a]).filter (fun x => bucketOf x = k'))) ++
        [(k, [a])] := by
  intro K
  induction K with
  | nil => intro _ _; rfl
  | cons k0 K ih =>
    intro hno hb
    simp only [List.map_cons, addToGroups]
    have h0 : ¬ (k0 = k) := hno k0 (by simp)
    rw [if_neg h0]
    rw [ih (fun k' hk' => hno k' (by simp [hk'])) hb]
    have hhead : (as ++ [a]).filter (fun x => bucketOf x = k0) =
        as.filter (fun x => bucketOf x = k0) := by
      rw [List.filter_append, filter_singleton_miss hb (fun he => h0 he.symm),
        List.append_nil]
    rw [hhead]
    simp

theorem groupActors_eq (actors : List Actor) :
    groupActors actors = (firstSeenKeys (actors.map bucketOf)).map
      (fun k => (k, actors.filter (fun a => bucketOf a = k))) := by
  induction actors using List.reverseRecOn with
  | nil => rfl
  | append_singleton as a ih =>
    have hstep : groupActors (as ++ [a]) =
        addToGroups (groupActors as) (bucketOf a) a := by
      simp [groupActors, List.foldl_append]
    rw [hstep, ih, List.map_append]
    simp only [List.map_cons, List.map_nil]
    rw [firstSeenKeys_snoc]
    by_cases hmem : bucketOf a ∈ firstSeenKeys (as.map bucketOf)
    · rw [if_pos (by simpa using hmem)]
      exact addToGroups_mem _ (firstSeenKeys_nodup _) hmem rfl
    · rw [if_neg (by simpa using hmem)]
      rw [List.map_append]
      have hno : ∀ k' ∈ firstSeenKeys (as.map bucketOf), ¬ (k' = bucketOf a) := by
        intro k' hk' he
        exact hmem (he ▸ hk')
      rw [addToGroups_new _ hno rfl]
      have hlast : (as ++ [a]).filter (fun x => bucketOf x = bucketOf a) =
          as.filter (fun x => bucketOf x = bucketOf a) ++ [a] := by
        rw [List.filter_append]
        simp [List.filter_singleton]
      have hnil : as.filter (fun x => bucketOf x = bucketOf a) = [] := by
        rw [List.filter_eq_nil_iff]
        intro x hx hbx
        apply hmem
        rw [firstSeenKeys_mem]
        refine List.mem_map.mpr ⟨x, hx, ?_⟩
        simpa using hbx
      simp [hlast, hnil]

end GenStdlibDoc

namespace GenStdlibDoc

theorem matchArity_simple (t r : List Char) (ht : ¬ (t = []))
    (hW : ∀ c ∈ t, isWordChar c = true) (h1 : r.takeWhile isWordChar = [])
    (h2 : r.dropWhile isWordChar = r) (h3 : r.head? = some ')') :
    matchArity (t ++ r) = some (t, r) := by
  unfold matchArity
  simp only [token_take t r hW h1, token_drop t r hW h2]
  rw [if_neg ht]
  cases r with
  | nil => simp at h3
  | cons c tl =>
    rw [List.head?_cons, Option.some.injEq] at h3
    subst h3
    rfl

end GenStdlibDoc

namespace GenStdlibDoc

theorem dropWhile_space_token (t r : List Char) (ht : ¬ (t = []))
    (hW : ∀ c ∈ t, isWordChar c = true) :
    List.dropWhile pyIsSpace (t ++ r) = t ++ r := by
  cases t with
  | nil => exact absurd rfl ht
  | cons c cs =>
    simp [List.dropWhile_cons, not_space_of_word (hW c (by simp))]

theorem matchActorBody_tokens (n it ia ot oa tr : List Char)
    (hn0 : ¬ (n = [])) (hnW : ∀ c ∈ n, isWordChar c = true)
    (hit0 : ¬ (it = [])) (hitW : ∀ c ∈ it, isWordChar c = true)
    (hia0 : ¬ (ia = [])) (hiaW : ∀ c ∈ ia, isWordChar c = true)
    (hot0 : ¬ (ot = [])) (hotW : ∀ c ∈ ot, isWordChar c = true)
    (hoa0 : ¬ (oa = [])) (hoaW : ∀ c ∈ oa, isWordChar c = true) :
    matchActorBody ("ACTOR(".data ++ (n ++ (", IN(".data ++ (it ++ (", ".data ++
      (ia ++ ("), OUT(".data ++ (ot ++ (", ".data ++ (oa ++ (')' :: tr))))))))))) =
      some (n, it, ia, ot, oa) := by
  have e1 : List.dropWhile pyIsSpace (' ' :: 'I' :: 'N' :: '(' :: (it ++ (',' :: ' ' :: (ia ++ (')' :: ',' :: ' ' :: 'O' :: 'U' :: 'T' :: '(' :: (ot ++ (',' :: ' ' :: (oa ++ ')' :: tr)))))))) =
      'I' :: 'N' :: '(' :: (it ++ (',' :: ' ' :: (ia ++ (')' :: ',' :: ' ' :: 'O' :: 'U' :: 'T' :: '(' :: (ot ++ (',' :: ' ' :: (oa ++ ')' :: tr))))))) := rfl
  have e2 : dropLit ['I', 'N', '('] ('I' :: 'N' :: '(' :: (it ++ (',' :: ' ' :: (ia ++ (')' :: ',' :: ' ' :: 'O' :: 'U' :: 'T' :: '(' :: (ot ++ (',' :: ' ' :: (oa ++ ')' :: tr)))))))) = some (it ++ (',' :: ' ' :: (ia ++ (')' :: ',' :: ' ' :: 'O' :: 'U' :: 'T' :: '(' :: (ot ++ (',' :: ' ' :: (oa ++ ')' :: tr))))))) := rfl
  have e3 : List.dropWhile pyIsSpace (' ' :: (ia ++ (')' :: ',' :: ' ' :: 'O' :: 'U' :: 'T' :: '(' :: (ot ++ (',' :: ' ' :: (oa ++ ')' :: tr)))))) = (ia ++ (')' :: ',' :: ' ' :: 'O' :: 'U' :: 'T' :: '(' :: (ot ++ (',' :: ' ' :: (oa ++ ')' :: tr))))) := by
    rw [show List.dropWhile pyIsSpace (' ' :: (ia ++ (')' :: ',' :: ' ' :: 'O' :: 'U' :: 'T' :: '(' :: (ot ++ (',' :: ' ' :: (oa ++ ')' :: tr)))))) =
        List.dropWhile pyIsSpace (ia ++ (')' :: ',' :: ' ' :: 'O' :: 'U' :: 'T' :: '(' :: (ot ++ (',' :: ' ' :: (oa ++ ')' :: tr))))) from rfl]
    exact dropWhile_space_token ia (')' :: ',' :: ' ' :: 'O' :: 'U' :: 'T' :: '(' :: (ot ++ (',' :: ' ' :: (oa ++ ')' :: tr)))) hia0 hiaW
  have e4 : matchArity (ia ++ (')' :: ',' :: ' ' :: 'O' :: 'U' :: 'T' :: '(' :: (ot ++ (',' :: ' ' :: (oa ++ ')' :: tr))))) = some (ia, (')' :: ',' :: ' ' :: 'O' :: 'U' :: 'T' :: '(' :: (ot ++ (',' :: ' ' :: (oa ++ ')' :: tr))))) :=
    matchArity_simple ia (')' :: ',' :: ' ' :: 'O' :: 'U' :: 'T' :: '(' :: (ot ++ (',' :: ' ' :: (oa ++ ')' :: tr)))) hia0 hiaW rfl rfl rfl
  have e5 : List.dropWhile pyIsSpace (' ' :: 'O' :: 'U' :: 'T' :: '(' :: (ot ++ (',' :: ' ' :: (oa ++ ')' :: tr)))) =
      'O' :: 'U' :: 'T' :: '(' :: (ot ++ (',' :: ' ' :: (oa ++ ')' :: tr))) := rfl
  have e6 : dropLit ['O', 'U', 'T', '('] ('O' :: 'U' :: 'T' :: '(' :: (ot ++ (',' :: ' ' :: (oa ++ ')' :: tr)))) =
      some (ot ++ (',' :: ' ' :: (oa ++ ')' :: tr))) := rfl
  have e7 : List.dropWhile pyIsSpace (' ' :: (oa ++ ')' :: tr)) = (oa ++ ')' :: tr) := by
    rw [show List.dropWhile pyIsSpace (' ' :: (oa ++ ')' :: tr)) =
        List.dropWhile pyIsSpace (oa ++ ')' :: tr) from rfl]
    exact dropWhile_space_token oa (')' :: tr) hoa0 hoaW
  have e8 : matchArity (oa ++ ')' :: tr) = some (oa, ')' :: tr) :=
    matchArity_simple oa (')' :: tr) hoa0 hoaW rfl rfl rfl
  unfold matchActorBody
  rw [dropLit_append]
  simp only [List.cons_append, List.nil_append]
  simp only [token_take n (',' :: ' ' :: 'I' :: 'N' :: '(' :: (it ++ (',' :: ' ' :: (ia ++ (')' :: ',' :: ' ' :: 'O' :: 'U' :: 'T' :: '(' :: (ot ++ (',' :: ' ' :: (oa ++ ')' :: tr)))))))) hnW rfl,
    token_drop n (',' :: ' ' :: 'I' :: 'N' :: '(' :: (it ++ (',' :: ' ' :: (ia ++ (')' :: ',' :: ' ' :: 'O' :: 'U' :: 'T' :: '(' :: (ot ++ (',' :: ' ' :: (oa ++ ')' :: tr)))))))) hnW rfl,
    token_take it (',' :: ' ' :: (ia ++ (')' :: ',' :: ' ' :: 'O' :: 'U' :: 'T' :: '(' :: (ot ++ (',' :: ' ' :: (oa ++ ')' :: tr)))))) hitW rfl,
    token_drop it (',' :: ' ' :: (ia ++ (')' :: ',' :: ' ' :: 'O' :: 'U' :: 'T' :: '(' :: (ot ++ (',' :: ' ' :: (oa ++ ')' :: tr)))))) hitW rfl,
    token_take ot (',' :: ' ' :: (oa ++ ')' :: tr)) hotW rfl,
    token_drop ot (',' :: ' ' :: (oa ++ ')' :: tr)) hotW rfl,
    e1, e2, e3, e4, e5, e6, e7, e8, hn0, hit0, hot0,
    if_false, ite_false]

end GenStdlibDoc

namespace GenStdlibDoc

theorem drop_drop_one_singleton {α : Type} (k : Nat) (x : α) :
    (([x].drop k).drop 1) = [] := by
  cases k with
  | zero => rfl
  | succ m => simp


end GenStdlibDoc

namespace GenStdlibDoc

/-- Claim C1, counterexample: on a header with two consecutive summary
markers and a declaration only after the second, the FIRST doc block does
emit a record (pairing with that later declaration), and the second marker
line is absorbed into its description — the claim predicts zero records
for the first block. -/
theorem claim_C1_counterexample :
    (parse_actors cexC1).map (fun a => (a.brief, a.name, a.description)) =
      [("A".data, "f".data, ["@brief B".data])] := by rfl

/-- Claim C1, amended: a doc block emits no record when no declaration
matches anywhere before end-of-file; the declaration search is not bounded
by the next summary marker.  In particular an input none of whose lines
matches the declaration pattern yields no records at all. -/
theorem claim_C1_amended (src : String)
    (h : ∀ l ∈ pySplitlines src.data, searchActor (pyStrip l) = none) :
    parse_actors src = [] := by
  unfold parse_actors parse_actors_lines
  cases hx : scanLoopF ((pySplitlines src.data).length + 1) (pySplitlines src.data)
      none false [] with
  | none => rfl
  | some res =>
    simp only [Option.getD_some]
    exact scanLoopF_no_actor _ _ _ _ _ _ h hx

/-- Witness for the amended claim C1 at a concrete input. -/
theorem claim_C1_witness :
    parse_actors "/// @brief A\n/// @brief B\n/// text" = [] :=
  claim_C1_amended "/// @brief A\n/// @brief B\n/// text" (by decide)

/-- Claim C2, counterexample: the code leaves suppress mode at the first
non-comment line even when it is blank, so the doc block after the blank
line is scanned and produces a record; the scanner described by the claim
(suppression continuing through blank lines) would swallow that block and
produce none. -/
theorem claim_C2_counterexample :
    (parse_actors cexC2).map (fun a => a.brief) = ["A".data] ∧
    parse_actorsClaimC2 cexC2 = [] := ⟨by rfl, by rfl⟩

/-- Claim C2, amended: after a file-level marker, comment-prefixed lines
are consumed without interpretation, and suppress mode ends at the first
line that is not comment-prefixed — blank lines included — which is
re-examined in normal mode. -/
theorem claim_C2_amended :
    (∀ (l : List Char) (rest : List (List Char)) (g : Option (List Char))
       (acc : List Actor) (f : Nat), hasPre "///".data (pyStrip l) = true →
       scanLoopF (f + 1) (l :: rest) g true acc = scanLoopF f rest g true acc) ∧
    (∀ (l : List Char) (rest : List (List Char)) (g : Option (List Char))
       (acc : List Actor) (f : Nat), hasPre "///".data (pyStrip l) = false →
       scanLoopF (f + 1) (l :: rest) g true acc =
         scanLoopF (f + 1) (l :: rest) g false acc) :=
  ⟨fun _ _ _ _ _ h => scanLoopF_suppress h,
   fun _ _ _ _ _ h => scanLoopF_suppress_exit h⟩

/-- Witness for the amended claim C2 at concrete lines. -/
theorem claim_C2_witness :
    scanLoopF 2 ["/// x".data] none true [] = scanLoopF 1 [] none true [] ∧
    scanLoopF 1 ["y".data] none true [] = scanLoopF 1 ["y".data] none false [] :=
  ⟨claim_C2_amended.1 "/// x".data [] none [] 1 (by rfl),
   claim_C2_amended.2 "y".data [] none [] 0 (by rfl)⟩

end GenStdlibDoc

namespace GenStdlibDoc

/-- Claim C3: for every header consisting of a doc block (a summary-marker
line with brief text `b`) immediately followed by a declaration of the
fixed macro shape with word tokens `n`, `it`, `ia`, `ot`, `oa`, the
Scanner produces exactly one record whose `name`, `in_type`, `in_count`,
`out_type`, `out_count` equal the declaration's matched tokens and whose
`brief` equals the text captured from the summary-marker line. -/
theorem claim_C3 (b n it ia ot oa : List Char)
    (hb0 : ¬ (b = []))
    (hbh : ∀ c, b.head? = some c → pyIsSpace c = false)
    (hbl : ∀ c, b.getLast? = some c → pyIsSpace c = false)
    (hn0 : ¬ (n = [])) (hnW : ∀ c ∈ n, isWordChar c = true)
    (hit0 : ¬ (it = [])) (hitW : ∀ c ∈ it, isWordChar c = true)
    (hia0 : ¬ (ia = [])) (hiaW : ∀ c ∈ ia, isWordChar c = true)
    (hot0 : ¬ (ot = [])) (hotW : ∀ c ∈ ot, isWordChar c = true)
    (hoa0 : ¬ (oa = [])) (hoaW : ∀ c ∈ oa, isWordChar c = true) :
    (parse_actors_lines
      ["/// @brief ".data ++ b,
       "ACTOR(".data ++ (n ++ (", IN(".data ++ (it ++ (", ".data ++ (ia ++ ("), OUT(".data ++ (ot ++ (", ".data ++ (oa ++ ")) \x7b".data)))))))))]).map
      (fun a => (a.name, a.in_type, a.in_count, a.out_type, a.out_count, a.brief)) =
      [(n, it, ia, ot, oa, b)] := by
  have hh1 : ∀ c, ("/// @brief ".data ++ b).head? = some c → pyIsSpace c = false := by
    intro c hc
    rw [show ("/// @brief ".data ++ b).head? = some '/' from rfl,
      Option.some.injEq] at hc
    rw [← hc]
    rfl
  have hl1 : ∀ c, ("/// @brief ".data ++ b).getLast? = some c → pyIsSpace c = false := by
    intro c hc
    rw [List.getLast?_append_of_ne_nil _ hb0] at hc
    exact hbl c hc
  have hs1 : pyStrip ("/// @brief ".data ++ b) = "/// @brief ".data ++ b :=
    pyStrip_eq_self hh1 hl1
  have hdw : List.dropWhile pyIsSpace b = b := by
    cases b with
    | nil => rfl
    | cons c tl => simp [List.dropWhile_cons, hbh c rfl]
  have hmb : matchBrief ("/// @brief ".data ++ b) = some b := by
    show matchBrief ("/// @brief".data ++ (' ' :: b)) = some b
    unfold matchBrief
    rw [dropLit_append]
    have hstep : List.dropWhile pyIsSpace (' ' :: b) = b := by
      rw [show List.dropWhile pyIsSpace (' ' :: b) =
        List.dropWhile pyIsSpace b from rfl]
      exact hdw
    simp [hstep, show pyIsSpace ' ' = true from rfl]
  have hne2 : ¬ (("ACTOR(".data ++ (n ++ (", IN(".data ++ (it ++ (", ".data ++ (ia ++ ("), OUT(".data ++ (ot ++ (", ".data ++ (oa ++ ")) \x7b".data)))))))))) = []) := by
    intro he
    have h0 : ("ACTOR(".data ++ (n ++ (", IN(".data ++ (it ++ (", ".data ++ (ia ++ ("), OUT(".data ++ (ot ++ (", ".data ++ (oa ++ ")) \x7b".data)))))))))).head? = some 'A' := rfl
    rw [he] at h0
    cases h0
  have hh2 : ∀ c, ("ACTOR(".data ++ (n ++ (", IN(".data ++ (it ++ (", ".data ++ (ia ++ ("), OUT(".data ++ (ot ++ (", ".data ++ (oa ++ ")) \x7b".data)))))))))).head? = some c → pyIsSpace c = false := by
    intro c hc
    rw [show ("ACTOR(".data ++ (n ++ (", IN(".data ++ (it ++ (", ".data ++ (ia ++ ("), OUT(".data ++ (ot ++ (", ".data ++ (oa ++ ")) \x7b".data)))))))))).head? = some 'A' from rfl, Option.some.injEq] at hc
    rw [← hc]
    rfl
  have hre : ("ACTOR(".data ++ (n ++ (", IN(".data ++ (it ++ (", ".data ++ (ia ++ ("), OUT(".data ++ (ot ++ (", ".data ++ (oa ++ ")) \x7b".data)))))))))) =
      (("ACTOR(".data ++ n ++ ", IN(".data ++ it ++ ", ".data ++ ia ++
        "), OUT(".data ++ ot ++ ", ".data ++ oa) ++ ")) \x7b".data) := by
    simp [List.append_assoc]
  have hl2 : ∀ c, ("ACTOR(".data ++ (n ++ (", IN(".data ++ (it ++ (", ".data ++ (ia ++ ("), OUT(".data ++ (ot ++ (", ".data ++ (oa ++ ")) \x7b".data)))))))))).getLast? = some c → pyIsSpace c = false := by
    intro c hc
    rw [hre, List.getLast?_append_of_ne_nil _ (by decide),
      show ((")) \x7b".data : List Char)).getLast? = some '\x7b' from rfl,
      Option.some.injEq] at hc
    rw [← hc]
    rfl
  have hs2 : pyStrip ("ACTOR(".data ++ (n ++ (", IN(".data ++ (it ++ (", ".data ++ (ia ++ ("), OUT(".data ++ (ot ++ (", ".data ++ (oa ++ ")) \x7b".data)))))))))) = ("ACTOR(".data ++ (n ++ (", IN(".data ++ (it ++ (", ".data ++ (ia ++ ("), OUT(".data ++ (ot ++ (", ".data ++ (oa ++ ")) \x7b".data)))))))))) := pyStrip_eq_self hh2 hl2
  have hbody := matchActorBody_tokens n it ia ot oa ") \x7b".data
    hn0 hnW hit0 hitW hia0 hiaW hot0 hotW hoa0 hoaW
  have hAt : actorAt ("ACTOR(".data ++ (n ++ (", IN(".data ++ (it ++ (", ".data ++ (ia ++ ("), OUT(".data ++ (ot ++ (", ".data ++ (oa ++ ")) \x7b".data)))))))))) = some (n, it, ia, ot, oa) := by
    unfold actorAt
    rw [show dropTemplate ("ACTOR(".data ++ (n ++ (", IN(".data ++ (it ++ (", ".data ++ (ia ++ ("), OUT(".data ++ (ot ++ (", ".data ++ (oa ++ ")) \x7b".data)))))))))) = none from rfl]
    exact hbody
  have hse : searchActor ("ACTOR(".data ++ (n ++ (", IN(".data ++ (it ++ (", ".data ++ (ia ++ ("), OUT(".data ++ (ot ++ (", ".data ++ (oa ++ ")) \x7b".data)))))))))) = some (n, it, ia, ot, oa) :=
    searchActor_of_actorAt hne2 hAt
  unfold parse_actors_lines
  rw [scanLoopF_brief (by rw [hs1]; exact hmb)]
  rw [docLoop_break (by rw [hs2]; rfl) (by rw [hs2]; exact hne2)]
  dsimp only
  simp only [List.drop_zero]
  rw [findActor_found (by rw [hs2]; exact hse)]
  dsimp only
  rw [if_neg hn0, drop_drop_one_singleton]
  rfl

/-- Witness for claim C3 at concrete tokens. -/
theorem claim_C3_witness :
    (parse_actors_lines
      ["/// @brief Scales input".data,
       "ACTOR(".data ++ ("scale".data ++ (", IN(".data ++ ("cf32".data ++
         (", ".data ++ ("4".data ++ ("), OUT(".data ++ ("cf32".data ++
         (", ".data ++ ("4".data ++ ")) \x7b".data)))))))))]).map
      (fun a => (a.name, a.in_type, a.in_count, a.out_type, a.out_count, a.brief)) =
      [("scale".data, "cf32".data, "4".data, "cf32".data, "4".data,
        "Scales input".data)] :=
  claim_C3 "Scales input".data "scale".data "cf32".data "4".data "cf32".data "4".data
    (by decide)
    (fun c hc => by
      rw [show ("Scales input".data : List Char).head? = some 'S' from rfl,
        Option.some.injEq] at hc
      rw [← hc]
      rfl)
    (fun c hc => by
      rw [show ("Scales input".data : List Char).getLast? = some 't' from rfl,
        Option.some.injEq] at hc
      rw [← hc]
      rfl)
    (by decide) (by decide) (by decide) (by decide) (by decide) (by decide)
    (by decide) (by decide) (by decide) (by decide)

end GenStdlibDoc

namespace GenStdlibDoc

/-- Claim C4, counterexample: in a doc block whose code sample contains a
fully blank line, that blank line is skipped and never appended to
`example` (the claim says blank lines are reproduced); comment-prefixed
payloads, including the empty payload of a bare `///`, are appended; and
the `@param` line outside the sample goes to `params`, not to
`description` (the claim says out-of-pair comment lines go to
`description`). -/
theorem claim_C4_counterexample :
    (parse_actors cexC4).map (fun a => (a.description, a.params, a.exampleLines)) =
      [(["intro".data], [("a".data, "first".data)],
        ["x = 1".data, "y = 2".data, ([] : List Char)])] := by rfl

/-- Claim C4, amended: while in example sub-mode every comment-prefixed
line (not a code marker) has its payload appended verbatim to `example`,
including blank payloads, and contributes nothing to `description`;
entirely blank lines are skipped in every mode and appended nowhere;
outside example sub-mode a parameter-marker line goes to `params`, and a
plain comment line goes to `description` only when it is neither a
parameter nor a return marker and its payload is non-empty and not the
literal placeholder. -/
theorem claim_C4_amended :
    (∀ (l : List Char) (rest : List (List Char)) (a : Actor) (c : Bool),
       pyStrip l = [] →
       docLoop (l :: rest) a c = ((docLoop rest a c).1, (docLoop rest a c).2 + 1)) ∧
    (∀ (l : List Char) (rest : List (List Char)) (a : Actor) (t : List Char),
       matchDocLine (pyStrip l) = some t → isCodeStart (pyStrip l) = false →
       isCodeEnd (pyStrip l) = false →
       docLoop (l :: rest) a true =
         ((docLoop rest { a with exampleLines := a.exampleLines ++ [t] } true).1,
          (docLoop rest { a with exampleLines := a.exampleLines ++ [t] } true).2 + 1)) ∧
    (∀ (l : List Char) (rest : List (List Char)) (a : Actor)
       (pr : List Char × List Char),
       matchParam (pyStrip l) = some pr → isCodeStart (pyStrip l) = false →
       isCodeEnd (pyStrip l) = false →
       docLoop (l :: rest) a false =
         ((docLoop rest { a with params := a.params ++ [pr] } false).1,
          (docLoop rest { a with params := a.params ++ [pr] } false).2 + 1)) ∧
    (∀ (l : List Char) (rest : List (List Char)) (a : Actor) (t : List Char),
       matchDocLine (pyStrip l) = some t → isCodeStart (pyStrip l) = false →
       isCodeEnd (pyStrip l) = false → matchParam (pyStrip l) = none →
       matchReturn (pyStrip l) = none → ¬ (t = []) →
       ¬ (t = "Example usage:".data) →
       docLoop (l :: rest) a false =
         ((docLoop rest { a with description := a.description ++ [t] } false).1,
          (docLoop rest { a with description := a.description ++ [t] } false).2 + 1)) :=
  ⟨fun _ _ _ _ h => docLoop_blank h,
   fun _ _ _ _ h h1 h2 => docLoop_example h h1 h2,
   fun _ _ _ _ h h1 h2 => docLoop_param h h1 h2,
   fun _ _ _ _ h h1 h2 h3 h4 h5 h6 => docLoop_descline h h1 h2 h3 h4 h5 h6⟩

/-- Witness for the amended claim C4 at concrete lines. -/
theorem claim_C4_witness :
    docLoop [[]] (initActor none "A".data) false =
      ((docLoop [] (initActor none "A".data) false).1,
       (docLoop [] (initActor none "A".data) false).2 + 1) ∧
    docLoop ["/// x = 1".data] (initActor none "A".data) true =
      ((docLoop [] { initActor none "A".data with
          exampleLines := (initActor none "A".data).exampleLines ++ ["x = 1".data] }
          true).1,
       (docLoop [] { initActor none "A".data with
          exampleLines := (initActor none "A".data).exampleLines ++ ["x = 1".data] }
          true).2 + 1) ∧
    docLoop ["/// @param a desc".data] (initActor none "A".data) false =
      ((docLoop [] { initActor none "A".data with
          params := (initActor none "A".data).params ++ [("a".data, "desc".data)] }
          false).1,
       (docLoop [] { initActor none "A".data with
          params := (initActor none "A".data).params ++ [("a".data, "desc".data)] }
          false).2 + 1) ∧
    docLoop ["/// words".data] (initActor none "A".data) false =
      ((docLoop [] { initActor none "A".data with
          description := (initActor none "A".data).description ++ ["words".data] }
          false).1,
       (docLoop [] { initActor none "A".data with
          description := (initActor none "A".data).description ++ ["words".data] }
          false).2 + 1) :=
  ⟨claim_C4_amended.1 [] [] (initActor none "A".data) false (by rfl),
   claim_C4_amended.2.1 "/// x = 1".data [] (initActor none "A".data) "x = 1".data
     (by rfl) (by rfl) (by rfl),
   claim_C4_amended.2.2.1 "/// @param a desc".data [] (initActor none "A".data)
     ("a".data, "desc".data) (by rfl) (by rfl) (by rfl),
   claim_C4_amended.2.2.2 "/// words".data [] (initActor none "A".data) "words".data
     (by rfl) (by rfl) (by rfl) (by rfl) (by rfl) (by decide) (by decide)⟩

/-- Claim C5: the concrete scenario — one doc block with brief "Adds two
numbers", parameters `a` and `b`, a return description, followed by the
`add` declaration — yields exactly the expected record, whose input and
output signatures render as `int32[2]` and `int32[1]`. -/
theorem claim_C5 :
    parse_actors srcC5 = [addRecord] ∧
    addRecord.name = "add".data ∧
    addRecord.params = [("a".data, "first operand".data),
      ("b".data, "second operand".data)] ∧
    addRecord.returns = "the sum".data ∧
    renderInSig addRecord = "int32[2]".data ∧
    renderOutSig addRecord = "int32[1]".data := by
  refine ⟨by rfl, by rfl, by rfl, by rfl, by rfl, by rfl⟩

end GenStdlibDoc

namespace GenStdlibDoc

/-- Claim C6, counterexample: in `cexC6` the nearest group-marker line
preceding record B's summary marker is `@defgroup g2 Beta`, but that line
is consumed by record A's declaration search without updating the tracked
group, so B's category is still "Alpha". -/
theorem claim_C6_counterexample :
    (parse_actors cexC6).map (fun a => (a.brief, a.group)) =
      [("A".data, some "Alpha".data), ("B".data, some "Alpha".data)] ∧
    lastDefgroupTitle ((pySplitlines cexC6.data).take 5) = some "Beta".data :=
  ⟨by rfl, by rfl⟩

/-- Claim C6, amended: a record's category equals the group state tracked
by the main loop at the time its summary marker is scanned: a group-marker
line processed in normal mode overrides the state for everything after
it; when no line updates the state, every emitted record carries the
incoming state; and a record with no category falls into the fixed
"Other" bucket at render time. -/
theorem claim_C6_amended :
    (∀ (l : List Char) (rest : List (List Char)) (g : Option (List Char))
       (acc : List Actor) (f : Nat) (t : List Char),
       matchDefgroup (pyStrip l) = some t →
       scanLoopF (f + 1) (l :: rest) g false acc =
         scanLoopF f rest (some t) false acc) ∧
    (∀ (f : Nat) (lines : List (List Char)) (g : Option (List Char)) (fb : Bool)
       (acc res : List Actor),
       (∀ l ∈ lines, matchDefgroup (pyStrip l) = none) →
       scanLoopF f lines g fb acc = some res →
       ∀ a ∈ res, a ∈ acc ∨ a.group = g) ∧
    (∀ a : Actor, a.group = none → bucketOf a = "Other".data) := by
  refine ⟨fun _ _ _ _ _ _ h => scanLoopF_defgroup h, ?_, ?_⟩
  · intro f lines g fb acc res hno h a ha
    rcases scanLoopF_members f lines g fb acc res h a ha with hacc | ⟨_, hgr⟩
    · exact Or.inl hacc
    · rcases hgr with hg | ⟨x, t, hx, hmt, _⟩
      · exact Or.inr hg
      · rw [hno x hx] at hmt
        cases hmt
  · intro a h
    unfold bucketOf
    rw [h]

/-- Witness for the amended claim C6 at concrete inputs. -/
theorem claim_C6_witness :
    scanLoopF 2 ["/// @defgroup g Math".data] none false [] =
      scanLoopF 1 [] (some "Math".data) false [] ∧
    (∀ a ∈ [c6WitnessRecord], a ∈ ([] : List Actor) ∨ a.group = some "M".data) ∧
    bucketOf c8RecordB = "Other".data :=
  ⟨claim_C6_amended.1 "/// @defgroup g Math".data [] none [] 1 "Math".data (by rfl),
   claim_C6_amended.2.1 3
     ["/// @brief A".data, "ACTOR(f, IN(int32, 1), OUT(int32, 1)) \x7b".data]
     (some "M".data) false [] [c6WitnessRecord] (by decide) (by rfl),
   claim_C6_amended.2.2 c8RecordB (by rfl)⟩

/-- Claim C7: for every input string the Scanner terminates normally with
its stated fuel (the fuelled loop returns a value, never the exhaustion
marker) and returns a list of records; incomplete documentation only
reduces the count, which never exceeds the number of summary-marker
lines. -/
theorem claim_C7 (src : String) :
    (scanLoopF ((pySplitlines src.data).length + 1) (pySplitlines src.data)
      none false []).isSome = true ∧
    (parse_actors src).length ≤
      ((pySplitlines src.data).filter
        (fun l => (matchBrief (pyStrip l)).isSome)).length := by
  constructor
  · exact scanLoopF_total _ _ _ _ _ (by omega)
  · unfold parse_actors parse_actors_lines
    cases hx : scanLoopF ((pySplitlines src.data).length + 1) (pySplitlines src.data)
        none false [] with
    | none => simp
    | some res =>
      simp only [Option.getD_some]
      simpa using scanLoopF_length _ _ _ _ _ _ hx

/-- Claim C9: the Scanner is a deterministic function of its input text —
formalised against the one extra parameter of the embedding, the fuel:
every run with any sufficient fuel returns the same record list
`parse_actors src`. -/
theorem claim_C9 (src : String) (fuel : Nat)
    (h : (pySplitlines src.data).length < fuel) :
    scanLoopF fuel (pySplitlines src.data) none false [] =
      some (parse_actors src) := by
  rw [scanLoopF_fuel fuel ((pySplitlines src.data).length + 1) _ none false [] h
    (by omega)]
  unfold parse_actors parse_actors_lines
  cases hx : scanLoopF ((pySplitlines src.data).length + 1) (pySplitlines src.data)
      none false [] with
  | none =>
    have htot := scanLoopF_total ((pySplitlines src.data).length + 1)
      (pySplitlines src.data) none false [] (by omega)
    rw [hx] at htot
    cases htot
  | some res => simp

/-- Witness for claim C9 at a concrete input and fuel. -/
theorem claim_C9_witness :
    (pySplitlines ("/// @brief A\nACTOR(f, IN(int32, 1), OUT(int32, 1)) \x7b").data).length < 9 ∧
    scanLoopF 9 (pySplitlines ("/// @brief A\nACTOR(f, IN(int32, 1), OUT(int32, 1)) \x7b").data)
      none false [] =
      some (parse_actors "/// @brief A\nACTOR(f, IN(int32, 1), OUT(int32, 1)) \x7b") :=
  ⟨by decide,
   claim_C9 "/// @brief A\nACTOR(f, IN(int32, 1), OUT(int32, 1)) \x7b" 9 (by decide)⟩

/-- Claim C10: every string in any emitted record's description is
non-empty and differs from the literal "Example usage:". -/
theorem claim_C10 (src : String) :
    ∀ a ∈ parse_actors src, ∀ d ∈ a.description,
      ¬ (d = []) ∧ ¬ (d = "Example usage:".data) := by
  intro a ha d hd
  unfold parse_actors parse_actors_lines at ha
  cases hx : scanLoopF ((pySplitlines src.data).length + 1) (pySplitlines src.data)
      none false [] with
  | none =>
    rw [hx] at ha
    simp at ha
  | some res =>
    rw [hx] at ha
    simp only [Option.getD_some] at ha
    rcases scanLoopF_members _ _ _ _ _ _ hx a ha with hacc | ⟨hdsc, _⟩
    · exact absurd hacc (List.not_mem_nil a)
    · exact hdsc d hd

/-- Witness for claim C10 at a concrete input, record and line. -/
theorem claim_C10_witness :
    c10WitnessRecord ∈
      parse_actors "/// @brief A\n/// body text\nACTOR(f, IN(int32, 1), OUT(int32, 1)) \x7b" ∧
    "body text".data ∈ c10WitnessRecord.description ∧
    (¬ ("body text".data = ([] : List Char)) ∧
     ¬ ("body text".data = "Example usage:".data)) :=
  ⟨by decide, by decide,
   claim_C10 "/// @brief A\n/// body text\nACTOR(f, IN(int32, 1), OUT(int32, 1)) \x7b"
     c10WitnessRecord (by decide) "body text".data (by decide)⟩

/-- Claim C8: for every collection of records whose categories are never
the empty string, the Assembler's grouping partitions the records by
category with the no-category records in the fixed "Other" bucket, buckets
in first-seen order, and records inside each bucket in their original
relative order. -/
theorem claim_C8 (actors : List Actor) (h : ∀ a ∈ actors, ¬ (a.group = some [])) :
    groupActors actors = (firstSeenKeys (actors.map claimKey)).map
      (fun k => (k, actors.filter (fun a => claimKey a = k))) := by
  have hkey : ∀ a ∈ actors, bucketOf a = claimKey a := by
    intro a ha
    unfold bucketOf claimKey
    cases hg : a.group with
    | none => rfl
    | some t =>
      have ht : ¬ (t = []) := by
        intro he
        exact h a ha (by rw [hg, he])
      simp [ht]
  rw [groupActors_eq, List.map_congr_left hkey]
  refine List.map_congr_left ?_
  intro k _
  have : actors.filter (fun a => bucketOf a = k) =
      actors.filter (fun a => claimKey a = k) :=
    List.filter_congr (fun a ha => by rw [hkey a ha])
  rw [this]

/-- Witness for claim C8 at a concrete record collection. -/
theorem claim_C8_witness :
    (∀ a ∈ [c8RecordA, c8RecordB, c8RecordA], ¬ (a.group = some [])) ∧
    groupActors [c8RecordA, c8RecordB, c8RecordA] =
      (firstSeenKeys ([c8RecordA, c8RecordB, c8RecordA].map claimKey)).map
        (fun k => (k, [c8RecordA, c8RecordB, c8RecordA].filter
          (fun a => claimKey a = k))) :=
  ⟨by decide, claim_C8 [c8RecordA, c8RecordB, c8RecordA] (by decide)⟩

end GenStdlibDoc
